import Mathlib

/-!
# SwarmOps pipeline orchestrator — mechanized model and verification

Shallow embedding of the SwarmOps orchestrator core in Lean 4, together
with theorems settling the specification claims about it.  Every
definition mirrors a TypeScript function of the repository; external
effects (clock values, generated ids, random jitter, gateway calls,
git subprocesses) are passed as explicit parameters so the embedded
functions are pure and executable.

Components modelled here:
* Task Registry (`task-registry`): `canSpawnTask`, `registerTask`.
* Retry Controller (`retry-handler`): `recordAttempt`, `calculateRetryDelay`.
* Work Ledger (`WorkStorage`): `create`, `appendEvent`, `updateStatus`,
  `setOutput`, `incrementIterations`, `cancel`, `applyRecord`, replay.
* Task-graph phase derivation (`parsePhases`).
* Phase Collector (`phase-collector`): `onWorkerComplete`.
* Escalation Store (`escalation-store`): `createEscalation`.
* Review Handler (`review-handler`): `handleFixRequest`, `handleApproval`.
* Progress Watchdog (`progress-watchdog`): `recoverStalledProject`.
* Review-result webhook (pipeline flow).
-/

/-- JavaScript string truthiness for optional string fields: `undefined`
and the empty string are falsy. -/
def strTruthy : Option String → Bool
  | none => false
  | some s => !(s == "")

/-- JavaScript `x || d` for an optional string `x`: falls back to `d`
when `x` is `undefined` or empty. -/
def orElseStr (o : Option String) (d : String) : String :=
  match o with
  | some s => if s == "" then d else s
  | none => d

/-! ## Task Registry (`src/dashboard/server/utils/paths.ts`, task-registry module) -/

/-- `TaskStatus` union from the task registry. -/
inductive TaskStatus
  | pending
  | running
  | completed
  | failed
  | cancelled
deriving DecidableEq, Repr

/-- `TaskEntry` record of the task registry. -/
structure TaskEntry where
  taskId : String
  projectName : String
  runId : Option String := none
  phaseNumber : Option Nat := none
  status : TaskStatus
  workerId : Option String := none
  workerBranch : Option String := none
  startedAt : Option String := none
  completedAt : Option String := none
  error : Option String := none
  output : Option String := none
deriving DecidableEq, Repr

/-- The registry's `tasks` object: a key-ordered association list keyed by
`projectName:taskId` (a JS object has unique keys in insertion order). -/
structure TaskRegistry where
  tasks : List (String × TaskEntry)
  lastUpdated : String := ""
deriving DecidableEq, Repr

/-- `getTaskKey`: key of a task in the registry. -/
def getTaskKey (projectName taskId : String) : String :=
  projectName ++ ":" ++ taskId

/-- Lookup of `registry.tasks[key]`. -/
def lookupEntry (tasks : List (String × TaskEntry)) (key : String) : Option TaskEntry :=
  match tasks.find? (fun kv => kv.1 == key) with
  | some kv => some kv.2
  | none => none

/-- Assignment `registry.tasks[key] = e` on a JS object: replaces the
existing binding in place, otherwise appends a new one. -/
def setEntry (tasks : List (String × TaskEntry)) (key : String) (e : TaskEntry) :
    List (String × TaskEntry) :=
  if tasks.any (fun kv => kv.1 == key) then
    tasks.map (fun kv => if kv.1 == key then (key, e) else kv)
  else
    tasks ++ [(key, e)]

/-- Result shape of `canSpawnTask`. -/
structure CanSpawnResult where
  canSpawn : Bool
  reason : Option String := none
  existingStatus : Option TaskStatus := none
  existingEntry : Option TaskEntry := none
deriving DecidableEq, Repr

/-- `canSpawnTask(projectName, taskId)`: deduplication check against the
registry (the on-disk/TTL-cached registry state is the explicit argument). -/
def canSpawnTask (registry : TaskRegistry) (projectName taskId : String) : CanSpawnResult :=
  let key := getTaskKey projectName taskId
  match lookupEntry registry.tasks key with
  | none => { canSpawn := true }
  | some entry =>
    if entry.status = TaskStatus.running then
      { canSpawn := false
        reason := some ("Task " ++ taskId ++ " is already running (started: " ++
          (entry.startedAt.getD "undefined") ++ ")")
        existingStatus := some entry.status
        existingEntry := some entry }
    else if entry.status = TaskStatus.completed then
      { canSpawn := false
        reason := some ("Task " ++ taskId ++ " is already completed")
        existingStatus := some entry.status
        existingEntry := some entry }
    else
      { canSpawn := true
        existingStatus := some entry.status
        existingEntry := some entry }

/-- Options object of `registerTask`. -/
structure RegisterTaskOpts where
  projectName : String
  taskId : String
  runId : Option String := none
  phaseNumber : Option Nat := none
  workerId : Option String := none
  workerBranch : Option String := none
deriving DecidableEq, Repr

/-- `registerTask(opts)`: unconditionally writes a fresh `running` entry
under the task's key (`now` is the wall-clock ISO timestamp).  The source
never consults the existing entry and cannot fail. -/
def registerTask (opts : RegisterTaskOpts) (now : String) (registry : TaskRegistry) :
    TaskEntry × TaskRegistry :=
  let key := getTaskKey opts.projectName opts.taskId
  let entry : TaskEntry :=
    { taskId := opts.taskId
      projectName := opts.projectName
      runId := opts.runId
      phaseNumber := opts.phaseNumber
      status := TaskStatus.running
      workerId := opts.workerId
      workerBranch := opts.workerBranch
      startedAt := some now }
  (entry, { registry with tasks := setEntry registry.tasks key entry, lastUpdated := now })

/-! ## Retry Controller (`role-loader.ts`, retry-handler module) -/

/-- `RetryPolicy`. -/
structure RetryPolicy where
  maxAttempts : Nat
  baseDelayMs : Nat
  maxDelayMs : Nat
  backoffMultiplier : Nat
deriving DecidableEq, Repr

/-- `DEFAULT_RETRY_POLICY`. -/
def DEFAULT_RETRY_POLICY : RetryPolicy :=
  { maxAttempts := 3, baseDelayMs := 5000, maxDelayMs := 60000, backoffMultiplier := 2 }

/-- One recorded `RetryAttempt`. -/
structure RetryAttempt where
  attempt : Nat
  timestamp : String
  error : Option String := none
  durationMs : Option Nat := none
deriving DecidableEq, Repr

/-- Retry status union. -/
inductive RetryStatus
  | pending
  | retrying
  | exhausted
  | succeeded
deriving DecidableEq, Repr

/-- `RetryState` for one `(runId, stepOrder)` key.  `nextRetryAt` is kept
as an epoch-milliseconds value (the source stores the ISO rendering of
`Date.now() + delayMs`). -/
structure RetryState where
  runId : String
  stepOrder : Nat
  taskId : Option String := none
  attempts : List RetryAttempt
  policy : RetryPolicy
  status : RetryStatus
  nextRetryAt : Option Int := none
  createdAt : String
  updatedAt : String
deriving DecidableEq, Repr

/-- `initRetryState`. -/
def initRetryState (runId : String) (stepOrder : Nat) (taskId : Option String)
    (policy : RetryPolicy) (now : String) : RetryState :=
  { runId := runId
    stepOrder := stepOrder
    taskId := taskId
    attempts := []
    policy := policy
    status := RetryStatus.pending
    createdAt := now
    updatedAt := now }

/-- `calculateRetryDelay(state)`: exponential backoff with ±10% jitter.
`rand` is the `Math.random()` draw in `[0, 1]`; floating-point arithmetic
is modelled exactly over `ℚ`. -/
def calculateRetryDelay (state : RetryState) (rand : ℚ) : Int :=
  let attemptNumber := state.attempts.length
  let delay : ℚ := (state.policy.baseDelayMs : ℚ) * (state.policy.backoffMultiplier : ℚ) ^ attemptNumber
  let jitter : ℚ := delay * (1 / 10) * (2 * rand - 1)
  min (Int.floor (delay + jitter)) (state.policy.maxDelayMs : Int)

/-- `recordAttempt`: push an attempt, then set status and `nextRetryAt`.
`now`/`nowMs` are the wall clock (ISO / epoch ms), `rand` the jitter draw. -/
def recordAttempt (state : RetryState) (success : Bool) (error : Option String)
    (durationMs : Option Nat) (now : String) (nowMs : Int) (rand : ℚ) : RetryState :=
  let attempt : RetryAttempt :=
    { attempt := state.attempts.length + 1
      timestamp := now
      error := error
      durationMs := durationMs }
  let s := { state with attempts := state.attempts ++ [attempt], updatedAt := now }
  if success then
    { s with status := RetryStatus.succeeded, nextRetryAt := none }
  else if s.policy.maxAttempts ≤ s.attempts.length then
    { s with status := RetryStatus.exhausted, nextRetryAt := none }
  else
    { s with status := RetryStatus.retrying, nextRetryAt := some (nowMs + calculateRetryDelay s rand) }

/-- One call to `recordAttempt` with its environment inputs. -/
structure AttemptCall where
  success : Bool
  error : Option String := none
  durationMs : Option Nat := none
  now : String := ""
  nowMs : Int := 0
  rand : ℚ := 1 / 2
deriving Repr

/-- Apply one `AttemptCall`. -/
def applyAttemptCall (s : RetryState) (c : AttemptCall) : RetryState :=
  recordAttempt s c.success c.error c.durationMs c.now c.nowMs c.rand

/-- Fold a sequence of `recordAttempt` calls on one retry key. -/
def runAttempts (s : RetryState) (cs : List AttemptCall) : RetryState :=
  cs.foldl applyAttemptCall s

/-- A call sequence respecting the `canRetry` guard: each call is made
only while `attempts.length < policy.maxAttempts`. -/
def guardedSeq : RetryState → List AttemptCall → Bool
  | _, [] => true
  | s, c :: cs =>
    decide (s.attempts.length < s.policy.maxAttempts) && guardedSeq (applyAttemptCall s c) cs

/-! ## Work Ledger (`src/unnamed/part_001`, `WorkStorage`)

JSONL append-only ledger sharded per UTC day, folded into an in-memory
cache.  The cache (a `Map` keyed by item id) is modelled as an
insertion-ordered list of items with unique ids; the ledger as the list
of `(date, record)` appends in the order they were written. -/

/-- `WorkStatus` union. -/
inductive WorkStatus
  | pending
  | running
  | complete
  | failed
  | cancelled
deriving DecidableEq, Repr

/-- Rendering of a `WorkStatus` into the message strings the source
builds by template interpolation. -/
def workStatusName : WorkStatus → String
  | WorkStatus.pending => "pending"
  | WorkStatus.running => "running"
  | WorkStatus.complete => "complete"
  | WorkStatus.failed => "failed"
  | WorkStatus.cancelled => "cancelled"

/-- `['complete', 'failed', 'cancelled'].includes(status)`. -/
def isTerminalWorkStatus (s : WorkStatus) : Bool :=
  s = WorkStatus.complete || s = WorkStatus.failed || s = WorkStatus.cancelled

/-- The `data` payload attached to `status_change` events
(`{ from, to, error }`; `from`/`to` renamed as `from` is a Lean keyword). -/
structure WorkEventData where
  fromStatus : WorkStatus
  toStatus : WorkStatus
  error : Option String := none
deriving DecidableEq, Repr

/-- `WorkEvent`. -/
structure WorkEvent where
  timestamp : String
  type : String
  message : String
  data : Option WorkEventData := none
deriving DecidableEq, Repr

/-- `WorkItem.timestamps`. -/
structure WorkTimestamps where
  createdAt : String
  updatedAt : String
  startedAt : Option String := none
  completedAt : Option String := none
deriving DecidableEq, Repr

/-- `WorkItem`.  Fields that are copied verbatim from the create input and
never touched by any ledger record (`type`, `roleId`, `sessionKey`,
`description`, `input`, `tags`, `priority`) are omitted. -/
structure WorkItem where
  id : String
  title : String
  parentId : Option String := none
  childIds : List String := []
  status : WorkStatus
  error : Option String := none
  output : Option String := none
  iterations : Nat := 0
  timestamps : WorkTimestamps
  events : List WorkEvent := []
deriving DecidableEq, Repr

/-- The `Partial<WorkItem>` payloads of `update` records.  The source only
ever appends partials over `childIds`, `output` and `iterations`. -/
structure WorkUpdates where
  childIds : Option (List String) := none
  output : Option String := none
  iterations : Option Nat := none
deriving DecidableEq, Repr

/-- `WorkLedgerRecord` tagged union. -/
inductive WorkLedgerRecord
  | create (item : WorkItem)
  | event (workId : String) (event : WorkEvent)
  | status (workId : String) (status : WorkStatus) (timestamp : String) (error : Option String)
  | update (workId : String) (updates : WorkUpdates) (timestamp : String)
deriving DecidableEq, Repr

/-- `cache.get(id)`. -/
def cacheGet (cache : List WorkItem) (id : String) : Option WorkItem :=
  cache.find? (fun item => item.id == id)

/-- `cache.set(item.id, item)`: replace in place or append. -/
def cacheSet (cache : List WorkItem) (item : WorkItem) : List WorkItem :=
  if cache.any (fun it => it.id == item.id) then
    cache.map (fun it => if it.id == item.id then item else it)
  else
    cache ++ [item]

/-- `getDateString`: the `YYYY-MM-DD` part of an ISO-8601 UTC timestamp
(`new Date(ts).toISOString().split('T')[0]`, i.e. the prefix before the
first `T`; the inputs used here are already normalized ISO UTC strings). -/
def getDateString (iso : String) : String :=
  String.mk (iso.toList.takeWhile (fun c => c ≠ 'T'))

/-- `Object.assign(item, record.updates)`. -/
def applyUpdates (item : WorkItem) (u : WorkUpdates) : WorkItem :=
  let item := match u.childIds with
    | some c => { item with childIds := c }
    | none => item
  let item := match u.output with
    | some o => { item with output := some o }
    | none => item
  match u.iterations with
  | some n => { item with iterations := n }
  | none => item

/-- `applyRecord`: fold one ledger record into the cache. -/
def applyRecord (cache : List WorkItem) : WorkLedgerRecord → List WorkItem
  | WorkLedgerRecord.create item => cacheSet cache item
  | WorkLedgerRecord.event workId ev =>
    match cacheGet cache workId with
    | none => cache
    | some item =>
      cacheSet cache
        { item with
          events := item.events ++ [ev]
          timestamps := { item.timestamps with updatedAt := ev.timestamp } }
  | WorkLedgerRecord.status workId status timestamp error =>
    match cacheGet cache workId with
    | none => cache
    | some item =>
      let item := { item with status := status,
                              timestamps := { item.timestamps with updatedAt := timestamp } }
      let item := if strTruthy error then { item with error := error } else item
      let item :=
        if status = WorkStatus.running ∧ item.timestamps.startedAt = none then
          { item with timestamps := { item.timestamps with startedAt := some timestamp } }
        else item
      let item :=
        if isTerminalWorkStatus status then
          { item with timestamps := { item.timestamps with completedAt := some timestamp } }
        else item
      cacheSet cache item
  | WorkLedgerRecord.update workId updates timestamp =>
    match cacheGet cache workId with
    | none => cache
    | some item =>
      let item := applyUpdates item updates
      cacheSet cache { item with timestamps := { item.timestamps with updatedAt := timestamp } }

/-- In-memory state of a `WorkStorage` instance: the item cache plus the
full persisted ledger (as date-tagged appends). -/
structure WorkStorageState where
  cache : List WorkItem := []
  ledger : List (String × WorkLedgerRecord) := []
deriving DecidableEq, Repr

/-- `appendRecord(date, record)`. -/
def appendWorkRecord (s : WorkStorageState) (date : String) (r : WorkLedgerRecord) :
    WorkStorageState :=
  { s with ledger := s.ledger ++ [(date, r)] }

/-- `create(input)` for an input with a title and optional parent
(`newId` is the generated id, `now` the wall clock).  Note that when a
parent is updated, the parent's in-memory `updatedAt` is not touched even
though the appended `update` record carries a timestamp. -/
def wsCreate (s : WorkStorageState) (title : String) (parentId : Option String)
    (newId now : String) : WorkItem × WorkStorageState :=
  let date := getDateString now
  let item : WorkItem :=
    { id := newId
      title := title
      parentId := parentId
      childIds := []
      status := WorkStatus.pending
      iterations := 0
      timestamps := { createdAt := now, updatedAt := now }
      events := [{ timestamp := now, type := "created",
                   message := "Work item created: " ++ title }] }
  let s := appendWorkRecord s date (WorkLedgerRecord.create item)
  let s := { s with cache := cacheSet s.cache item }
  match parentId with
  | none => (item, s)
  | some pid =>
    match cacheGet s.cache pid with
    | none => (item, s)
    | some parent =>
      let newChildIds := parent.childIds ++ [newId]
      let s := { s with cache := cacheSet s.cache ({ parent with childIds := newChildIds }) }
      let parentDate := getDateString parent.timestamps.createdAt
      let s := appendWorkRecord s parentDate
        (WorkLedgerRecord.update parent.id { childIds := some newChildIds } now)
      (item, s)

/-- `appendEvent(id, eventInput)`; `none` models the thrown
`NotFoundError` when the item does not exist. -/
def wsAppendEvent (s : WorkStorageState) (id : String) (type message : String)
    (data : Option WorkEventData) (now : String) : Option WorkStorageState :=
  match cacheGet s.cache id with
  | none => none
  | some item =>
    let ev : WorkEvent := { timestamp := now, type := type, message := message, data := data }
    let date := getDateString item.timestamps.createdAt
    let s := appendWorkRecord s date (WorkLedgerRecord.event id ev)
    let item := { item with
      events := item.events ++ [ev]
      timestamps := { item.timestamps with updatedAt := now } }
    some { s with cache := cacheSet s.cache item }

/-- Modelled from the spec: the work-state machine (`getWorkStateMachine`
from `../state/work-state`, not present in the sources) allows
`pending → running`, `running → complete | failed | cancelled` and the
administrative `pending → cancelled`; any other transition raises
`ErrInvalidTransition`. -/
def validWorkTransition : WorkStatus → WorkStatus → Bool
  | WorkStatus.pending, WorkStatus.running => true
  | WorkStatus.pending, WorkStatus.cancelled => true
  | WorkStatus.running, WorkStatus.complete => true
  | WorkStatus.running, WorkStatus.failed => true
  | WorkStatus.running, WorkStatus.cancelled => true
  | _, _ => false

/-- `updateStatus(id, newStatus, error?)`; `none` models the thrown
`NotFoundError` / `InvalidTransitionError`.  Mirrors the source ordering
exactly: the two ledger records capture the pre-mutation `item.status`,
while the in-memory event is pushed after `item.status` has been
reassigned. -/
def wsUpdateStatus (s : WorkStorageState) (id : String) (newStatus : WorkStatus)
    (error : Option String) (now : String) : Option WorkStorageState :=
  match cacheGet s.cache id with
  | none => none
  | some item =>
    if !validWorkTransition item.status newStatus then none
    else
      let date := getDateString item.timestamps.createdAt
      let s := appendWorkRecord s date (WorkLedgerRecord.status id newStatus now error)
      let eventMessage :=
        if strTruthy error then
          "Status changed to " ++ workStatusName newStatus ++ ": " ++ error.getD ""
        else
          "Status changed to " ++ workStatusName newStatus
      let s := appendWorkRecord s date (WorkLedgerRecord.event id
        { timestamp := now
          type := "status_change"
          message := eventMessage
          data := some { fromStatus := item.status, toStatus := newStatus, error := error } })
      let item := { item with status := newStatus,
                              timestamps := { item.timestamps with updatedAt := now } }
      let item := if strTruthy error then { item with error := error } else item
      let item :=
        if newStatus = WorkStatus.running ∧ item.timestamps.startedAt = none then
          { item with timestamps := { item.timestamps with startedAt := some now } }
        else item
      let item :=
        if isTerminalWorkStatus newStatus then
          { item with timestamps := { item.timestamps with completedAt := some now } }
        else item
      let item := { item with events := item.events ++
        [{ timestamp := now
           type := "status_change"
           message := eventMessage
           data := some { fromStatus := item.status, toStatus := newStatus, error := error } }] }
      some { s with cache := cacheSet s.cache item }

/-- `cancel(id, reason?)`. -/
def wsCancel (s : WorkStorageState) (id : String) (reason : Option String) (now : String) :
    Option WorkStorageState :=
  wsUpdateStatus s id WorkStatus.cancelled (some (orElseStr reason "Cancelled by user")) now

/-- `setOutput(id, output)` (the output payload is kept abstract as a
string). -/
def wsSetOutput (s : WorkStorageState) (id : String) (output : String) (now : String) :
    Option WorkStorageState :=
  match cacheGet s.cache id with
  | none => none
  | some item =>
    let date := getDateString item.timestamps.createdAt
    let s := appendWorkRecord s date
      (WorkLedgerRecord.update id { output := some output } now)
    let item := { item with
      output := some output
      timestamps := { item.timestamps with updatedAt := now } }
    some { s with cache := cacheSet s.cache item }

/-- `incrementIterations(id)`. -/
def wsIncrementIterations (s : WorkStorageState) (id : String) (now : String) :
    Option WorkStorageState :=
  match cacheGet s.cache id with
  | none => none
  | some item =>
    let newIterations := item.iterations + 1
    let date := getDateString item.timestamps.createdAt
    let s := appendWorkRecord s date
      (WorkLedgerRecord.update id { iterations := some newIterations } now)
    let item := { item with
      iterations := newIterations
      timestamps := { item.timestamps with updatedAt := now } }
    some { s with cache := cacheSet s.cache item }

/-- Fold a list of records into a cache (`loadDate`'s per-line loop). -/
def applyRecords (cache : List WorkItem) (records : List WorkLedgerRecord) : List WorkItem :=
  records.foldl applyRecord cache

/-- The records persisted under one date shard, in append order. -/
def recordsForDate (ledger : List (String × WorkLedgerRecord)) (date : String) :
    List WorkLedgerRecord :=
  (ledger.filter (fun dr => dr.1 == date)).map (fun dr => dr.2)

/-- Replay after `invalidateCache()`: fold every date shard (in the sorted
order `listDateFiles` yields, supplied here as `dates`) into a fresh
cache. -/
def replayLedger (dates : List String) (ledger : List (String × WorkLedgerRecord)) :
    List WorkItem :=
  dates.foldl (fun cache d => applyRecords cache (recordsForDate ledger d)) []

/-! ## Phase derivation from `progress.md` (`src/unnamed/part_010`, `parsePhases`) -/

/-- `GraphTask` as consumed by `parsePhases` (produced by `parseTaskGraph`;
the graph is an input here). -/
structure GraphTask where
  id : String
  title : String := ""
  role : String := ""
  done : Bool
  depends : List String := []
deriving DecidableEq, Repr

/-- `PhaseInfo.status` union. -/
inductive PhaseStatus
  | pending
  | running
  | merging
  | reviewing
  | completed
  | failed
deriving DecidableEq, Repr

/-- `PhaseInfo`. -/
structure PhaseInfo where
  number : Nat
  name : String
  tasks : List GraphTask
  status : PhaseStatus
deriving DecidableEq, Repr

/-- `content.split('\n')` (structural recursion; empty segments are
kept, exactly as in JavaScript). -/
def splitLinesGo (acc : List Char) : List Char → List String
  | [] => [String.mk acc.reverse]
  | c :: rest =>
    if c = '\n' then String.mk acc.reverse :: splitLinesGo [] rest
    else splitLinesGo (c :: acc) rest

/-- Split a string into its lines at `'\n'`. -/
def splitLines (s : String) : List String :=
  splitLinesGo [] s.toList

/-- JavaScript `String.prototype.trim` on a character list. -/
def trimChars (cs : List Char) : String :=
  String.mk (((cs.dropWhile Char.isWhitespace).reverse.dropWhile Char.isWhitespace).reverse)

/-- Decimal digits to a number. -/
def digitsToNat (ds : List Char) : Nat :=
  ds.foldl (fun n c => n * 10 + (c.toNat - '0'.toNat)) 0

/-- Match of the header regex `^#{2,3}\s+Phase\s+(\d+)(?::\s*(.*))?`
(case-insensitive).  Returns the phase number and the already-resolved
phase name (`match[2]?.trim() || "Phase N"`). -/
def matchPhaseHeader (line : String) : Option (Nat × String) :=
  let cs := line.toList
  let hashes := cs.takeWhile (fun c => c = '#')
  if hashes.length < 2 || 3 < hashes.length then none
  else
    let rest := cs.drop hashes.length
    match rest with
    | [] => none
    | c :: _ =>
      if !c.isWhitespace then none
      else
        let rest := rest.dropWhile Char.isWhitespace
        if (rest.take 5).map Char.toLower ≠ "phase".toList then none
        else
          let rest := rest.drop 5
          match rest with
          | [] => none
          | c2 :: _ =>
            if !c2.isWhitespace then none
            else
              let rest := rest.dropWhile Char.isWhitespace
              let digits := rest.takeWhile Char.isDigit
              if digits.isEmpty then none
              else
                let n := digitsToNat digits
                let afterNum := rest.drop digits.length
                let rawName :=
                  match afterNum with
                  | ':' :: r => trimChars r
                  | _ => ""
                some (n, if rawName == "" then "Phase " ++ toString n else rawName)

/-- First match of `/@id\(([^)]+)\)/` in a line (with the regex engine's
backtracking over start positions). -/
def extractTaskId : List Char → Option String
  | [] => none
  | c :: rest =>
    if c = '@' ∧ rest.take 3 = "id(".toList then
      let after := rest.drop 3
      let inner := after.takeWhile (fun ch => ch ≠ ')')
      if !inner.isEmpty ∧ (after.drop inner.length).head? = some ')' then
        some (String.mk inner)
      else
        extractTaskId rest
    else
      extractTaskId rest

/-- `graph.tasks.get(taskId)` (the graph's task map as an association
list). -/
def lookupTask (graph : List (String × GraphTask)) (taskId : String) : Option GraphTask :=
  match graph.find? (fun kv => kv.1 == taskId) with
  | some kv => some kv.2
  | none => none

/-- The line loop of `parsePhases`: accumulate phases and the current
phase's tasks.  `cur` is `currentPhase` (number and resolved name). -/
def parsePhasesGo (graph : List (String × GraphTask)) :
    List String → Option (Nat × String) → List GraphTask → List PhaseInfo → List PhaseInfo
  | [], cur, curTasks, acc =>
    match cur with
    | some (n, name) =>
      acc ++ [{ number := n, name := name, tasks := curTasks, status := PhaseStatus.pending }]
    | none => acc
  | line :: rest, cur, curTasks, acc =>
    match matchPhaseHeader line with
    | some (n, name) =>
      let acc :=
        match cur with
        | some (m, nm) =>
          acc ++ [{ number := m, name := nm, tasks := curTasks, status := PhaseStatus.pending }]
        | none => acc
      parsePhasesGo graph rest (some (n, name)) [] acc
    | none =>
      match cur with
      | none => parsePhasesGo graph rest cur curTasks acc
      | some _ =>
        match extractTaskId line.toList with
        | some taskId =>
          match lookupTask graph taskId with
          | some task => parsePhasesGo graph rest cur (curTasks ++ [task]) acc
          | none => parsePhasesGo graph rest cur curTasks acc
        | none => parsePhasesGo graph rest cur curTasks acc

/-- `phase.tasks.length > 0 && phase.tasks.every(t => t.done)`. -/
def phaseAllDone (p : PhaseInfo) : Bool :=
  !p.tasks.isEmpty && p.tasks.all (fun t => t.done)

/-- `phase.tasks.some(t => !t.done)` (named `anyRunning` in the source). -/
def phaseAnyUndone (p : PhaseInfo) : Bool :=
  p.tasks.any (fun t => !t.done)

/-- The status-update loop of `parsePhases`: phases are visited in order,
`acc` is the already-updated prefix (so `acc.length` is the index the
source computes with `phases.indexOf(phase)`, and the third branch reads
the updated statuses of the earlier phases). -/
def updatePhaseStatuses : List PhaseInfo → List PhaseInfo → List PhaseInfo
  | acc, [] => acc
  | acc, p :: rest =>
    let allDone := phaseAllDone p
    let anyRunning := phaseAnyUndone p
    let status :=
      if allDone then PhaseStatus.completed
      else if anyRunning && acc.isEmpty then PhaseStatus.running
      else if acc.all (fun q => q.status = PhaseStatus.completed) && anyRunning then
        PhaseStatus.running
      else p.status
    updatePhaseStatuses (acc ++ [{ p with status := status }]) rest

/-- `parsePhases(progressContent, graph)`. -/
def parsePhases (progressContent : String) (graph : List (String × GraphTask)) :
    List PhaseInfo :=
  updatePhaseStatuses [] (parsePhasesGo graph (splitLines progressContent) none [] [])

/-- Specification form of the status-update loop: process phases left to
right carrying "all earlier phases fully done" in `prevAll`. -/
def resolvePhases (prevAll : Bool) : List PhaseInfo → List PhaseInfo
  | [] => []
  | p :: rest =>
    let status :=
      if phaseAllDone p then PhaseStatus.completed
      else if phaseAnyUndone p && prevAll then PhaseStatus.running
      else p.status
    { p with status := status } :: resolvePhases (prevAll && phaseAllDone p) rest

/-! ## Phase Collector (`phase-collector.ts`) -/

/-- Worker status within a phase. -/
inductive PWStatus
  | running
  | completed
  | failed
deriving DecidableEq, Repr

/-- Phase-level status of the collector state. -/
inductive PCStatus
  | running
  | collecting
  | merging
  | completed
  | failed
deriving DecidableEq, Repr

/-- `PhaseWorker`. -/
structure PhaseWorker where
  workerId : String
  taskId : String
  taskDescription : Option String := none
  branch : String
  status : PWStatus
  completedAt : Option String := none
  output : Option String := none
  error : Option String := none
deriving DecidableEq, Repr

/-- `PhaseState` of the collector. -/
structure PhaseState where
  runId : String
  phaseNumber : Nat
  repoDir : String := ""
  baseBranch : String := ""
  workers : List PhaseWorker
  status : PCStatus
  phaseBranch : Option String := none
  collectedBranches : Option (List String) := none
  startedAt : String := ""
  completedAt : Option String := none
  projectPath : Option String := none
  projectName : Option String := none
deriving DecidableEq, Repr

/-- Modelled from the spec: `getWorkerBranch` (from `worktree-manager`,
not present in the sources) yields the worker branch name
`swarmops/<runId>/<workerId>`. -/
def getWorkerBranch (runId workerId : String) : String :=
  "swarmops/" ++ runId ++ "/" ++ workerId

/-- Worker list built by `initPhase` (`taskIds[i] || workerId`). -/
def initPhaseWorkers (runId : String) : List String → List String → List PhaseWorker
  | [], _ => []
  | workerId :: ws, taskIds =>
    { workerId := workerId
      taskId := orElseStr taskIds.head? workerId
      branch := getWorkerBranch runId workerId
      status := PWStatus.running } ::
    initPhaseWorkers runId ws (taskIds.drop 1)

/-- `initPhase(opts)`. -/
def initPhase (runId : String) (phaseNumber : Nat) (repoDir baseBranch : String)
    (workerIds taskIds : List String) (now : String) : PhaseState :=
  { runId := runId
    phaseNumber := phaseNumber
    repoDir := repoDir
    baseBranch := baseBranch
    workers := initPhaseWorkers runId workerIds taskIds
    status := PCStatus.running
    startedAt := now }

/-- The `status` parameter of `onWorkerComplete` (`'completed' | 'failed'`). -/
inductive CompletionInput
  | completed
  | failed
deriving DecidableEq, Repr

/-- Injection of the completion parameter into worker statuses. -/
def completionToPW : CompletionInput → PWStatus
  | CompletionInput.completed => PWStatus.completed
  | CompletionInput.failed => PWStatus.failed

/-- `state.workers.find(w => w.workerId === workerId)` followed by the
in-place mutation: update the first matching worker. -/
def updateFirstWorker (workers : List PhaseWorker) (workerId : String)
    (f : PhaseWorker → PhaseWorker) : List PhaseWorker :=
  match workers with
  | [] => []
  | w :: ws =>
    if w.workerId == workerId then f w :: ws
    else w :: updateFirstWorker ws workerId f

/-- `onWorkerComplete(opts)`: `none` models the thrown error when the
phase's worker is not found; otherwise returns
`(phaseComplete, allSucceeded, updated state)`. -/
def onWorkerComplete (st : PhaseState) (workerId : String) (cstatus : CompletionInput)
    (output error : Option String) (now : String) : Option (Bool × Bool × PhaseState) :=
  if st.workers.any (fun w => w.workerId == workerId) then
    let workers := updateFirstWorker st.workers workerId (fun w =>
      { w with
        status := completionToPW cstatus
        completedAt := some now
        output := output
        error := error })
    let st := { st with workers := workers }
    let allDone := st.workers.all (fun w => w.status ≠ PWStatus.running)
    let allSucceeded := st.workers.all (fun w => w.status = PWStatus.completed)
    some (allDone, allSucceeded, st)
  else
    none

/-- One `onWorkerComplete` call with its inputs. -/
structure WorkerCall where
  workerId : String
  cstatus : CompletionInput
  output : Option String := none
  error : Option String := none
  now : String := ""
deriving DecidableEq, Repr

/-- Apply one `WorkerCall`; a call that throws leaves the state unchanged
(the source throws before any mutation). -/
def applyWorkerCall (st : PhaseState) (c : WorkerCall) : PhaseState :=
  match onWorkerComplete st c.workerId c.cstatus c.output c.error c.now with
  | some r => r.2.2
  | none => st

/-- Fold a sequence of `onWorkerComplete` calls on one phase. -/
def runWorkerCalls (st : PhaseState) (cs : List WorkerCall) : PhaseState :=
  cs.foldl applyWorkerCall st

/-! ## Escalation Store (`escalation-store.ts`) -/

/-- Escalation severity union. -/
inductive EscalationSeverity
  | low
  | medium
  | high
  | critical
deriving DecidableEq, Repr

/-- Escalation status union (`open` is a Lean keyword, rendered `opened`). -/
inductive EscalationStatus
  | opened
  | resolved
  | dismissed
deriving DecidableEq, Repr

/-- `Escalation` record. -/
structure Escalation where
  id : String
  runId : String
  pipelineId : String
  pipelineName : String
  stepOrder : Nat
  roleId : String
  roleName : String
  taskId : Option String := none
  error : String
  attemptCount : Nat
  maxAttempts : Nat
  lastAttemptAt : String
  status : EscalationStatus
  severity : EscalationSeverity
  createdAt : String
  projectDir : Option String := none
  notes : Option String := none
deriving DecidableEq, Repr

/-- `determineSeverity(attemptCount, maxAttempts)`. -/
def determineSeverity (attemptCount maxAttempts : Nat) : EscalationSeverity :=
  if maxAttempts ≤ attemptCount then
    if 3 ≤ maxAttempts then EscalationSeverity.high else EscalationSeverity.medium
  else
    EscalationSeverity.low

/-- `CreateEscalationParams`. -/
structure CreateEscalationParams where
  runId : String
  pipelineId : String
  pipelineName : String
  stepOrder : Nat
  roleId : String
  roleName : String
  taskId : Option String := none
  error : String
  attemptCount : Nat
  maxAttempts : Nat
  projectDir : Option String := none
  severity : Option EscalationSeverity := none
deriving DecidableEq, Repr

/-- `createEscalation(params)`: append a fresh open escalation
(`newId`/`now` are the generated id and the wall clock). -/
def createEscalation (escalations : List Escalation) (params : CreateEscalationParams)
    (newId now : String) : Escalation × List Escalation :=
  let e : Escalation :=
    { id := newId
      runId := params.runId
      pipelineId := params.pipelineId
      pipelineName := params.pipelineName
      stepOrder := params.stepOrder
      roleId := params.roleId
      roleName := params.roleName
      taskId := params.taskId
      error := params.error
      attemptCount := params.attemptCount
      maxAttempts := params.maxAttempts
      lastAttemptAt := now
      status := EscalationStatus.opened
      severity := params.severity.getD (determineSeverity params.attemptCount params.maxAttempts)
      createdAt := now
      projectDir := params.projectDir }
  (e, escalations ++ [e])

/-! ## Review Handler and fix cycles (`review-handler.ts`) -/

/-- `FixCycle.status` union (source strings `pending-fix`, `fixing`,
`pending-review`, `approved`, `escalated`). -/
inductive FixCycleStatus
  | pendingFix
  | fixing
  | pendingReview
  | approved
  | escalated
deriving DecidableEq, Repr

/-- `FixCycle`. -/
structure FixCycle where
  id : String
  runId : String
  phaseNumber : Nat
  phaseBranch : String
  repoDir : String
  reviewCount : Nat
  fixCount : Nat
  maxFixAttempts : Nat
  status : FixCycleStatus
  currentFixerSession : Option String := none
  lastReviewComments : Option String := none
  lastFixInstructions : Option String := none
  createdAt : String := ""
  updatedAt : String := ""
deriving DecidableEq, Repr

/-- `getFixCycle(runId, phaseNumber)`. -/
def getFixCycle (cycles : List FixCycle) (runId : String) (phaseNumber : Nat) :
    Option FixCycle :=
  cycles.find? (fun c => c.runId == runId && c.phaseNumber == phaseNumber)

/-- `createFixCycle(opts)`: build and push a fresh cycle
(`fixCount = 0`, `maxFixAttempts = 3`, `reviewCount = 1`). -/
def createFixCycle (cycles : List FixCycle) (runId : String) (phaseNumber : Nat)
    (phaseBranch repoDir now : String) : FixCycle × List FixCycle :=
  let cycle : FixCycle :=
    { id := "fix-" ++ runId ++ "-phase-" ++ toString phaseNumber
      runId := runId
      phaseNumber := phaseNumber
      phaseBranch := phaseBranch
      repoDir := repoDir
      reviewCount := 1
      fixCount := 0
      maxFixAttempts := 3
      status := FixCycleStatus.pendingFix
      createdAt := now
      updatedAt := now }
  (cycle, cycles ++ [cycle])

/-- `saveFixCycle(cycle)`: replace the first cycle with the same id,
else append. -/
def saveFixCycle (cycles : List FixCycle) (cycle : FixCycle) : List FixCycle :=
  match cycles with
  | [] => [cycle]
  | c :: cs =>
    if c.id == cycle.id then cycle :: cs
    else c :: saveFixCycle cs cycle

/-- `clearFixCycle(runId, phaseNumber)`. -/
def clearFixCycle (cycles : List FixCycle) (runId : String) (phaseNumber : Nat) :
    List FixCycle :=
  cycles.filter (fun c => !(c.runId == runId && c.phaseNumber == phaseNumber))

/-- A project activity-log record (`activity.jsonl`).  The random UUID and
wall-clock timestamp attached by the source are nondeterministic
per-append metadata and are omitted; the theorems below only rely on
which records get appended. -/
structure ActivityEvent where
  type : String
  message : String
  taskId : Option String := none
  runId : Option String := none
  phaseNumber : Option Nat := none
deriving DecidableEq, Repr

/-- The persisted state the webhook/review/watchdog flows touch:
fix cycles (`fix-cycles.json`), escalations (`escalations.json`), the
project activity log (`activity.jsonl`), plus counters for the external
calls made (fixer-agent spawns, orchestrator re-trigger POSTs). -/
structure OrchState where
  fixCycles : List FixCycle := []
  escalations : List Escalation := []
  activity : List ActivityEvent := []
  fixerSpawns : Nat := 0
  orchestratorTriggers : Nat := 0
deriving DecidableEq, Repr

/-- `logActivity(projectPath, projectName, type, message, extra)`:
append one record to the project's activity log. -/
def logActivity (st : OrchState) (type message : String)
    (taskId : Option String := none) (runId : Option String := none)
    (phaseNumber : Option Nat := none) : OrchState :=
  { st with activity := st.activity ++
      [{ type := type, message := message, taskId := taskId, runId := runId,
         phaseNumber := phaseNumber }] }

/-- Environment inputs of `handleFixRequest`: the collector's phase state,
the outcome of the external `spawnFixer` gateway call (from the
`phase-reviewer` module, not present in the sources: `some sessionKey` on
success, `none` on failure), and generated id / clock values. -/
structure FixRequestEnv where
  phaseState : Option PhaseState
  spawnResult : Option String := none
  escalationId : String := "esc-1"
  now : String := ""

/-- Result shape of `handleFixRequest`. -/
structure FixRequestResult where
  success : Bool
  fixerSession : Option String := none
  escalated : Bool := false
  escalationId : Option String := none
  error : Option String := none
  message : Option String := none
deriving DecidableEq, Repr

/-- `handleFixRequest(opts)`.  The failure message of a failed spawn is
abstracted to the source's fallback text. -/
def handleFixRequest (env : FixRequestEnv) (runId : String) (phaseNumber : Nat)
    (fixInstructions : String) (reviewComments : Option String) (st : OrchState) :
    FixRequestResult × OrchState :=
  match env.phaseState with
  | none =>
    ({ success := false, error := some ("Phase " ++ toString phaseNumber ++ " not found") }, st)
  | some phaseState =>
    let found := getFixCycle st.fixCycles runId phaseNumber
    let fixCycle :=
      match found with
      | some c => c
      | none =>
        (createFixCycle st.fixCycles runId phaseNumber
          (phaseState.phaseBranch.getD ("swarmops/" ++ runId ++ "/phase-" ++ toString phaseNumber))
          phaseState.repoDir env.now).1
    let st :=
      match found with
      | some _ => st
      | none =>
        { st with fixCycles :=
            (createFixCycle st.fixCycles runId phaseNumber
              (phaseState.phaseBranch.getD
                ("swarmops/" ++ runId ++ "/phase-" ++ toString phaseNumber))
              phaseState.repoDir env.now).2 }
    if fixCycle.maxFixAttempts ≤ fixCycle.fixCount then
      let escParams : CreateEscalationParams :=
        { runId := runId
          pipelineId := runId
          pipelineName := "phase-" ++ toString phaseNumber
          stepOrder := phaseNumber
          roleId := "fixer"
          roleName := "AI Fixer"
          error := "Max fix attempts (" ++ toString fixCycle.maxFixAttempts ++
            ") reached. Last issues: " ++ fixInstructions
          attemptCount := fixCycle.fixCount
          maxAttempts := fixCycle.maxFixAttempts
          projectDir := some phaseState.repoDir
          severity := some EscalationSeverity.high }
      let created := createEscalation st.escalations escParams env.escalationId env.now
      let cycle := { fixCycle with status := FixCycleStatus.escalated }
      let st := { st with
        escalations := created.2
        fixCycles := saveFixCycle st.fixCycles cycle }
      ({ success := true
         escalated := true
         escalationId := some created.1.id
         message := some "Max fix attempts reached, escalated for human review" }, st)
    else
      let st := { st with fixerSpawns := st.fixerSpawns + 1 }
      match env.spawnResult with
      | none => ({ success := false, error := some "Failed to spawn fixer" }, st)
      | some sessionKey =>
        let cycle := { fixCycle with
          fixCount := fixCycle.fixCount + 1
          status := FixCycleStatus.fixing
          currentFixerSession := some sessionKey
          lastReviewComments := reviewComments
          lastFixInstructions := some fixInstructions
          updatedAt := env.now }
        let st := { st with fixCycles := saveFixCycle st.fixCycles cycle }
        ({ success := true
           fixerSession := some sessionKey
           message := some ("Fixer spawned (attempt " ++ toString cycle.fixCount ++ "/" ++
             toString cycle.maxFixAttempts ++ ")") }, st)

/-- The fix cycle `handleFixRequest` operates on: the stored one if
present, otherwise the freshly created one. -/
def pendingFixCycle (st : OrchState) (runId : String) (pn : Nat) (ps : PhaseState)
    (now : String) : FixCycle :=
  match getFixCycle st.fixCycles runId pn with
  | some c => c
  | none =>
    (createFixCycle st.fixCycles runId pn
      (ps.phaseBranch.getD ("swarmops/" ++ runId ++ "/phase-" ++ toString pn))
      ps.repoDir now).1

/-! ## Progress Watchdog (`progress-watchdog.ts`, `recoverStalledProject`) -/

/-- `MAX_TASK_RETRIES`. -/
def MAX_TASK_RETRIES : Nat := 3

/-- `getTaskRetryCount(projectName, taskId)`: count of `watchdog-retry`
records for the task in the project's activity log. -/
def getTaskRetryCount (activity : List ActivityEvent) (taskId : String) : Nat :=
  (activity.filter (fun e => e.type == "watchdog-retry" && e.taskId == some taskId)).length

/-- `WatchdogResult.status` union. -/
inductive WatchdogStatus
  | healthy
  | stalled
  | recovered
  | escalated
deriving DecidableEq, Repr

/-- `WatchdogResult`. -/
structure WatchdogResult where
  project : String
  status : WatchdogStatus
  message : String
  action : Option String := none
deriving DecidableEq, Repr

/-- Environment inputs of `recoverStalledProject`: the outcome of
`checkAndAdvancePhase` (`some (newPhase, message)` when the phase
advanced; errors thrown by the check are caught and behave like `none`),
the message of `triggerPhaseWork`, the incomplete tasks parsed from
`progress.md`, and the HTTP outcome of the orchestrator re-trigger. -/
structure WatchdogEnv where
  advanced : Option (String × String) := none
  triggerWorkMessage : String := ""
  incompleteTasks : List String := []
  orchestratorOk : Bool := true
  orchestratorErrorText : String := ""
deriving DecidableEq, Repr

/-- `recoverStalledProject(projectName)`. -/
def recoverStalledProject (env : WatchdogEnv) (projectName : String) (st : OrchState) :
    WatchdogResult × OrchState :=
  match env.advanced with
  | some (newPhase, message) =>
    let st := logActivity st "watchdog-advance"
      ("Watchdog detected phase ready to advance: " ++ message)
    ({ project := projectName
       status := WatchdogStatus.recovered
       message := "Phase advanced to " ++ newPhase
       action := some env.triggerWorkMessage }, st)
  | none =>
    match env.incompleteTasks with
    | [] =>
      let st := logActivity st "watchdog-check"
        "Watchdog found stalled project but no incomplete tasks and phase cannot advance. Manual check needed."
      ({ project := projectName
         status := WatchdogStatus.escalated
         message := "Stalled but no incomplete tasks found and phase cannot advance"
         action := some "Manual intervention needed" }, st)
    | taskToRetry :: _ =>
      let retryCount := getTaskRetryCount st.activity taskToRetry
      if MAX_TASK_RETRIES ≤ retryCount then
        let st := logActivity st "watchdog-escalate"
          ("Task " ++ taskToRetry ++ " failed after " ++ toString retryCount ++
            " watchdog retries. Manual intervention needed.")
        ({ project := projectName
           status := WatchdogStatus.escalated
           message := "Task " ++ taskToRetry ++ " exceeded max retries (" ++
             toString MAX_TASK_RETRIES ++ ")"
           action := some "Manual intervention required" }, st)
      else
        let st := logActivity st "watchdog-retry"
          ("Watchdog detected stall. Triggering orchestrator to retry task " ++ taskToRetry ++
            " (attempt " ++ toString (retryCount + 1) ++ "/" ++ toString MAX_TASK_RETRIES ++ ")")
          (some taskToRetry)
        let st := { st with orchestratorTriggers := st.orchestratorTriggers + 1 }
        if env.orchestratorOk then
          ({ project := projectName
             status := WatchdogStatus.recovered
             message := "Triggered orchestrator to retry task " ++ taskToRetry
             action := some ("Retry attempt " ++ toString (retryCount + 1)) }, st)
        else
          ({ project := projectName
             status := WatchdogStatus.escalated
             message := "Failed to trigger orchestrator: " ++ env.orchestratorErrorText
             action := some "Check orchestrator logs" }, st)

/-! ## Review-result webhook (`src/unnamed/part_010`, pipeline flow) -/

/-- `ReviewFinding`. -/
structure ReviewFinding where
  severity : String
  file : String
  line : Option Nat := none
  description : String
  fix : Option String := none
deriving DecidableEq, Repr

/-- `ReviewResultRequest.status` union. -/
inductive ReviewDecision
  | approved
  | requestChanges
deriving DecidableEq, Repr

/-- `ReviewResultRequest` body. -/
structure ReviewResultRequest where
  status : ReviewDecision
  findings : Option (List ReviewFinding) := none
  summary : Option String := none
  runId : Option String := none
  phaseNumber : Option Nat := none
deriving DecidableEq, Repr

/-- The activity record the webhook appends unconditionally on every
delivery (before any branching). -/
def reviewActivityEvent (body : ReviewResultRequest) : ActivityEvent :=
  { type := if body.status = ReviewDecision.approved then "complete" else "review"
    message :=
      if body.status = ReviewDecision.approved then
        "Review APPROVED - all checks passed"
      else
        "Review REQUEST_CHANGES - " ++ toString (body.findings.getD []).length ++ " issues found"
    runId := body.runId
    phaseNumber := body.phaseNumber }

/-- One numbered line of the fix instructions
(`${i+1}. [SEV] file:line: description → Fix: fix`); `line = 0` and an
empty `fix` are falsy in the source's template conditionals. -/
def findingLine (i : Nat) (f : ReviewFinding) : String :=
  toString (i + 1) ++ ". [" ++ f.severity.toUpper ++ "] " ++ f.file ++
    (match f.line with
     | some n => if n ≠ 0 then ":" ++ toString n else ""
     | none => "") ++
    ": " ++ f.description ++
    (if strTruthy f.fix then " → Fix: " ++ f.fix.getD "" else "")

/-- `fixNeeded.map((f, i) => …)`. -/
def findingLines : Nat → List ReviewFinding → List String
  | _, [] => []
  | i, f :: fs => findingLine i f :: findingLines (i + 1) fs

/-- The fix instructions block joined with newlines. -/
def buildFixInstructions (findings : List ReviewFinding) : String :=
  String.intercalate "\n" (findingLines 0 findings)

/-- Result shape of `handleApproval`. -/
structure ApprovalResult where
  success : Bool
  merged : Bool := false
  error : Option String := none
  message : Option String := none
deriving DecidableEq, Repr

/-- `handleApproval(opts)` (review-handler): merge the phase branch to
main and clear the phase's fix cycle on success.  The git `mergeToMain`
subprocess outcome is the `mergeOk` input; its error text is abstracted. -/
def handleApproval (phaseState : Option PhaseState) (mergeOk : Bool) (runId : String)
    (phaseNumber : Nat) (st : OrchState) : ApprovalResult × OrchState :=
  match phaseState with
  | none =>
    ({ success := false, error := some ("Phase " ++ toString phaseNumber ++ " not found") }, st)
  | some ps =>
    match ps.phaseBranch with
    | none => ({ success := false, error := some "No phase branch to merge" }, st)
    | some _ =>
      if mergeOk then
        let st := { st with fixCycles := clearFixCycle st.fixCycles runId phaseNumber }
        ({ success := true
           merged := true
           message := some ("Phase " ++ toString phaseNumber ++ " merged to main") }, st)
      else
        ({ success := false, merged := false, error := some "Merge failed" }, st)

/-- Outcome of `advanceToNextPhase` (phase-advancer). -/
structure AdvanceResult where
  pipelineComplete : Bool := false
  advanced : Bool := false
  nextPhase : Option Nat := none
  spawnedWorkers : Option Nat := none
  message : String := ""
deriving DecidableEq, Repr

/-- Environment inputs of the review-result webhook: the collector phase
state for `(runId, phaseNumber)`, the git merge outcome, the outcome and
activity appends of the phase-advance subroutine (whose file effects are
outside the state modelled here), the project's phase before a
completion (for `updateProjectPhase`'s `phase-change` log), and the fixer
spawn / id / clock inputs of `handleFixRequest`. -/
structure ReviewWebhookEnv where
  phaseState : Option PhaseState := none
  mergeOk : Bool := true
  advanceResult : AdvanceResult := {}
  advanceEffects : List ActivityEvent := []
  priorProjectPhase : String := "review"
  spawnResult : Option String := none
  escalationId : String := "esc-1"
  now : String := ""

/-- Response body of the webhook (fields used by the pipeline flow). -/
structure ReviewResponse where
  status : String
  message : String := ""
  pipelineComplete : Bool := false
  nextPhase : Option Nat := none
  spawnedWorkers : Option Nat := none
  escalationId : Option String := none
  fixerSession : Option String := none
deriving DecidableEq, Repr

/-- The review-result webhook (`defineEventHandler` +
`handlePipelineReviewResult`).  Every delivery first appends the review
activity record, then dispatches.  `none` marks the paths routed to the
legacy non-pipeline handler (`handleSimpleReviewResult` /
`spawnSimpleFixer`), which is not modelled: a missing or falsy
`runId`/`phaseNumber`, a missing phase state, or a failed pipeline fix
request. -/
def reviewResultWebhook (env : ReviewWebhookEnv) (body : ReviewResultRequest)
    (projectName : String) (st : OrchState) : Option (ReviewResponse × OrchState) :=
  let st := { st with activity := st.activity ++ [reviewActivityEvent body] }
  if strTruthy body.runId && body.phaseNumber.isSome then
    match body.runId, body.phaseNumber with
    | some runId, some phaseNumber =>
      match env.phaseState with
      | none => none
      | some _ =>
        match body.status with
        | ReviewDecision.approved =>
          let appr := handleApproval env.phaseState env.mergeOk runId phaseNumber st
          let st := appr.2
          if appr.1.success && appr.1.merged then
            let st := logActivity st "phase-merged"
              ("Phase " ++ toString phaseNumber ++ " merged to main after review approval")
              none (some runId) (some phaseNumber)
            let st := { st with activity := st.activity ++ env.advanceEffects }
            if env.advanceResult.pipelineComplete then
              let st :=
                if env.priorProjectPhase ≠ "complete" then
                  logActivity st "phase-change"
                    ("Auto-advanced: " ++ env.priorProjectPhase ++ " → complete")
                else st
              let st := logActivity st "complete"
                "Project COMPLETED - all phases reviewed and merged!"
              some ({ status := "approved"
                      message := "Pipeline complete - all phases reviewed and merged"
                      pipelineComplete := true }, st)
            else if env.advanceResult.advanced then
              some ({ status := "approved"
                      message := "Phase " ++ toString phaseNumber ++ " merged. Advanced to phase " ++
                        toString (env.advanceResult.nextPhase.getD 0)
                      nextPhase := env.advanceResult.nextPhase
                      spawnedWorkers := env.advanceResult.spawnedWorkers }, st)
            else
              some ({ status := "approved", message := env.advanceResult.message }, st)
          else
            some ({ status := "error"
                    message := orElseStr appr.1.error "Failed to merge phase branch" }, st)
        | ReviewDecision.requestChanges =>
          let allFindings := body.findings.getD []
          match allFindings with
          | [] =>
            some ({ status := "needs_clarification"
                    message := "Reviewer requested changes but provided no specific findings. Human review needed." }, st)
          | _ =>
            let fixInstructions := buildFixInstructions allFindings
            let fr := handleFixRequest
              { phaseState := env.phaseState
                spawnResult := env.spawnResult
                escalationId := env.escalationId
                now := env.now }
              runId phaseNumber fixInstructions body.summary st
            let st := fr.2
            if fr.1.escalated then
              let st := logActivity st "escalated"
                ("Phase " ++ toString phaseNumber ++ " escalated after max fix attempts")
                none (some runId) (some phaseNumber)
              some ({ status := "escalated"
                      message := orElseStr fr.1.message ""
                      escalationId := fr.1.escalationId }, st)
            else if fr.1.success && fr.1.fixerSession.isSome then
              let st := logActivity st "spawn"
                ("Fixer agent spawned for " ++ toString allFindings.length ++ " High/Critical issues")
                none (some runId) (some phaseNumber)
              some ({ status := "fixing"
                      message := orElseStr fr.1.message ""
                      fixerSession := fr.1.fixerSession }, st)
            else
              none
    | _, _ => none
  else
    none

/-! ## Concrete scenario inputs used by the theorems below -/

/-- Ledger scenario: create one work item, then move it `pending → running`. -/
def c1Run : WorkStorageState :=
  let s0 : WorkStorageState := {}
  let r := wsCreate s0 "demo task" none "w1" "2025-01-01T10:00:00.000Z"
  match wsUpdateStatus r.2 "w1" WorkStatus.running none "2025-01-01T10:00:05.000Z" with
  | some s2 => s2
  | none => r.2

/-- The `data.from` field of each of an item's events. -/
def eventFroms (item : WorkItem) : List (Option WorkStatus) :=
  item.events.map (fun e => e.data.map (fun d => d.fromStatus))

/-- Four consecutive failed `recordAttempt` calls. -/
def c3calls : List AttemptCall :=
  List.replicate 4 { success := false, error := some "spawn refused" }

/-- Retry state after four consecutive failures under the default policy. -/
def c3state : RetryState :=
  runAttempts (initRetryState "run-1" 100001 (some "t1") DEFAULT_RETRY_POLICY "t0") c3calls

/-- Three consecutive failed `recordAttempt` calls (guarded sequence). -/
def c3guardedCalls : List AttemptCall :=
  List.replicate 3 { success := false, error := some "spawn refused" }

/-- The retry policy of the claim: `maxAttempts=3, baseDelayMs=100,
backoffMultiplier=2` (`maxDelayMs` at its default 60000). -/
def c4Policy : RetryPolicy :=
  { maxAttempts := 3, baseDelayMs := 100, maxDelayMs := 60000, backoffMultiplier := 2 }

/-- Retry state after the first failed attempt under `c4Policy`
(`Date.now() = 0`, `Math.random() = 1/2`, i.e. zero jitter). -/
def c4After : RetryState :=
  recordAttempt (initRetryState "run-1" 0 none c4Policy "t0") false (some "err") none "t1" 0 (1 / 2)

/-- A progress document with one phase header and no tasks. -/
def c5doc : String := "## Phase 1: Empty"

/-- Collector phase with a single running worker. -/
def demoPhase : PhaseState := initPhase "run-1" 1 "/repo" "main" ["w1"] ["t1"] "t0"

/-- `demoPhase` after its worker completed. -/
def demoPhase1 : PhaseState :=
  match onWorkerComplete demoPhase "w1" CompletionInput.completed none none "t1" with
  | some r => r.2.2
  | none => demoPhase

/-- Webhook environment whose phase state exists (fresh phase of `run-1`). -/
def c2env : ReviewWebhookEnv :=
  { phaseState := some (initPhase "run-1" 2 "/repo" "main" ["w1"] ["t1"] "t0") }

/-- A review-result payload: `request_changes` with an empty findings
list, addressed to the pipeline flow. -/
def c2body : ReviewResultRequest :=
  { status := ReviewDecision.requestChanges
    findings := some []
    runId := some "run-1"
    phaseNumber := some 2 }

/-- First delivery of `c2body` from the empty state. -/
def c2once : Option (ReviewResponse × OrchState) :=
  reviewResultWebhook c2env c2body "proj" {}

/-- Second delivery of `c2body` on top of the first delivery's state. -/
def c2twice : Option (ReviewResponse × OrchState) :=
  c2once.bind (fun r => reviewResultWebhook c2env c2body "proj" r.2)

/-- Activity log holding exactly three `watchdog-retry` records for task
`t1`. -/
def c6st : OrchState :=
  { activity := List.replicate 3 { type := "watchdog-retry", message := "m", taskId := some "t1" } }

/-- Watchdog environment: no phase advance, task `t1` incomplete. -/
def c6env : WatchdogEnv := { incompleteTasks := ["t1"] }

def c5wdoc : String :=
  "## Phase 1: One\n- [x] A @id(a)\n## Phase 2: Two\n- [ ] B @id(b)"

def c5wgraph : List (String × GraphTask) :=
  [("a", { id := "a", done := true }), ("b", { id := "b", done := false })]

def c8ps : PhaseState := initPhase "run-1" 2 "/repo" "main" ["w1"] ["t1"] "t0"

def c8env : FixRequestEnv :=
  { phaseState := some c8ps, spawnResult := some "sess-1", escalationId := "esc-9", now := "t5" }

/-! # Theorems -/

/-! ### C9 / C10: task-registry deduplication and registration -/

theorem lookupEntry_setEntry (tasks : List (String × TaskEntry)) (key : String) (e : TaskEntry) :
    lookupEntry (setEntry tasks key e) key = some e := by
  unfold setEntry
  by_cases h : tasks.any (fun kv => kv.1 == key)
  · simp only [h, if_true]
    induction tasks with
    | nil => simp at h
    | cons kv rest ih =>
      by_cases hkv : kv.1 == key
      · simp [lookupEntry, List.find?, hkv]
      · have hrest : rest.any (fun kv => kv.1 == key) := by
          simp only [List.any_cons, hkv] at h
          simpa using h
        simp only [List.map_cons, if_neg hkv]
        simp only [lookupEntry, List.find?, hkv] at ih ⊢
        exact ih hrest
  · simp only [h, if_false]
    induction tasks with
    | nil => simp [lookupEntry, List.find?]
    | cons kv rest ih =>
      have hkv : (kv.1 == key) = false := by
        by_contra hc
        exact h (by simp [List.any_cons, eq_true_of_ne_false hc])
      have hrest : ¬rest.any (fun kv => kv.1 == key) := by
        intro hc
        exact h (by simp [List.any_cons, hc])
      simp only [List.cons_append, lookupEntry, List.find?, hkv] at ih ⊢
      exact ih hrest

/-- Claim C9: `canSpawnTask` returns `canSpawn = false` exactly when the
registry holds an entry for `(project, taskId)` whose status is `running`
or `completed`; an absent entry or one in `pending`/`failed`/`cancelled`
yields `canSpawn = true`. -/
theorem canSpawnTask_dedup_iff (registry : TaskRegistry) (projectName taskId : String) :
    (canSpawnTask registry projectName taskId).canSpawn = false ↔
      ∃ e, lookupEntry registry.tasks (getTaskKey projectName taskId) = some e ∧
        (e.status = TaskStatus.running ∨ e.status = TaskStatus.completed) := by
  unfold canSpawnTask
  cases h : lookupEntry registry.tasks (getTaskKey projectName taskId) with
  | none => simp [h]
  | some entry =>
    cases hs : entry.status <;> simp [h, hs]

/-- Claim C10: `registerTask` is total and unconditionally replaces the
`(project, taskId)` entry — whatever was there before, including a
`running` or `completed` entry — with a fresh `running` record carrying a
new `startedAt` and no `completedAt`/`error`/`output`. -/
theorem registerTask_overwrites (registry : TaskRegistry) (opts : RegisterTaskOpts)
    (now : String) :
    (registerTask opts now registry).1.status = TaskStatus.running ∧
    (registerTask opts now registry).1.startedAt = some now ∧
    (registerTask opts now registry).1.completedAt = none ∧
    (registerTask opts now registry).1.error = none ∧
    (registerTask opts now registry).1.output = none ∧
    lookupEntry (registerTask opts now registry).2.tasks
        (getTaskKey opts.projectName opts.taskId) =
      some (registerTask opts now registry).1 := by
  refine ⟨rfl, rfl, rfl, rfl, rfl, ?_⟩
  exact lookupEntry_setEntry _ _ _

/-! ### C1: ledger replay versus the in-memory cache -/

/-- Claim C1 (failing input): after `create` followed by
`updateStatus('running')`, replaying the persisted records yields a cache
that differs from the in-memory one — the persisted `status_change` event
carries `data.from = pending` (captured before the mutation) while the
in-memory push happens after `item.status` was reassigned and records
`data.from = running`. -/
theorem workStorage_replay_mismatch :
    replayLedger ["2025-01-01"] c1Run.ledger ≠ c1Run.cache ∧
    (cacheGet c1Run.cache "w1").map eventFroms =
      some [none, some WorkStatus.running] ∧
    (cacheGet (replayLedger ["2025-01-01"] c1Run.ledger) "w1").map eventFroms =
      some [none, some WorkStatus.pending] := by
  refine ⟨?_, by decide, by decide⟩
  decide

/-! ### C3 / C4: retry-state invariants and the first retry delay -/

/-- Claim C3 (counterexample): four consecutive failed `recordAttempt`
calls under the default policy (`maxAttempts = 3`) drive
`attempts.length` to 4 — beyond `maxAttempts` — while the status is
`exhausted` with `attempts.length ≠ maxAttempts`, refuting both the
length bound and the stated iff for unrestricted call sequences. -/
theorem recordAttempt_unbounded_counterexample :
    c3state.attempts.length = 4 ∧
    c3state.policy.maxAttempts = 3 ∧
    c3state.status = RetryStatus.exhausted ∧
    c3state.attempts.length ≠ c3state.policy.maxAttempts := by
  refine ⟨?_, ?_, ?_, ?_⟩ <;> decide

/-- Claim C4 (counterexample): under the policy
`{maxAttempts = 3, baseDelayMs = 100, backoffMultiplier = 2}`, the retry
scheduled after the first failed attempt uses
`calculateRetryDelay` on the post-push state (`attempts.length = 1`), so
with zero jitter the delay is `100·2¹ = 200` ms — not within the claimed
`[90, 110]` ms band around `baseDelayMs`. -/
theorem firstRetryDelay_counterexample :
    c4After.nextRetryAt = some 200 ∧
    ¬((90 : Int) ≤ 200 ∧ (200 : Int) ≤ 110) := by
  refine ⟨?_, by decide⟩
  unfold c4After recordAttempt initRetryState
  norm_num
  unfold calculateRetryDelay
  norm_num [c4Policy]

/-! ### C5: phase status derivation -/

/-- Claim C5 (counterexample): a phase with zero member tasks is left
`pending` by `parsePhases` — not vacuously `completed` — because the
source requires `tasks.length > 0` before `completed`. -/
theorem parsePhases_empty_phase_counterexample :
    parsePhases c5doc [] =
      [{ number := 1, name := "Empty", tasks := [], status := PhaseStatus.pending }] ∧
    PhaseStatus.pending ≠ PhaseStatus.completed := by
  refine ⟨by decide, by decide⟩

/-! ### C6: watchdog behaviour on exhausted retries -/

/-- Claim C6 (counterexample): with task `t1` stalled and already at
`MAX_TASK_RETRIES = 3` watchdog retries, `recoverStalledProject` returns
an `escalated` result and schedules no further retry, but the escalation
store stays empty — no `Escalation` record is created. -/
theorem watchdog_no_escalation_record_counterexample :
    (recoverStalledProject c6env "proj" c6st).1.status = WatchdogStatus.escalated ∧
    (recoverStalledProject c6env "proj" c6st).2.escalations = [] ∧
    (recoverStalledProject c6env "proj" c6st).2.orchestratorTriggers = 0 := by
  refine ⟨by decide, by decide, by decide⟩

/-- Claim C6 (amended): for every stalled task whose watchdog retry count
has reached `MAX_TASK_RETRIES = 3`, the watchdog schedules no further
retry (no orchestrator re-trigger), logs a `watchdog-escalate` activity
record, and returns an `escalated` result — but leaves the escalation
store untouched. -/
theorem watchdog_exhausted_retries_behavior (env : WatchdogEnv) (projectName : String)
    (st : OrchState) (t : String) (rest : List String)
    (hadv : env.advanced = none)
    (htasks : env.incompleteTasks = t :: rest)
    (hcount : MAX_TASK_RETRIES ≤ getTaskRetryCount st.activity t) :
    (recoverStalledProject env projectName st).1.status = WatchdogStatus.escalated ∧
    (recoverStalledProject env projectName st).2.escalations = st.escalations ∧
    (recoverStalledProject env projectName st).2.orchestratorTriggers =
      st.orchestratorTriggers ∧
    (recoverStalledProject env projectName st).2.activity = st.activity ++
      [{ type := "watchdog-escalate"
         message := "Task " ++ t ++ " failed after " ++
           toString (getTaskRetryCount st.activity t) ++
           " watchdog retries. Manual intervention needed." }] := by
  simp only [recoverStalledProject, hadv, htasks]
  rw [if_pos hcount]
  exact ⟨rfl, rfl, rfl, rfl⟩

/-- Witness for the amended C6 theorem at the concrete stalled state. -/
theorem watchdog_exhausted_retries_behavior_witness :
    c6env.advanced = none ∧ c6env.incompleteTasks = "t1" :: [] ∧
    MAX_TASK_RETRIES ≤ getTaskRetryCount c6st.activity "t1" ∧
    ((recoverStalledProject c6env "proj" c6st).1.status = WatchdogStatus.escalated ∧
     (recoverStalledProject c6env "proj" c6st).2.escalations = c6st.escalations ∧
     (recoverStalledProject c6env "proj" c6st).2.orchestratorTriggers =
       c6st.orchestratorTriggers ∧
     (recoverStalledProject c6env "proj" c6st).2.activity = c6st.activity ++
       [{ type := "watchdog-escalate"
          message := "Task " ++ "t1" ++ " failed after " ++
            toString (getTaskRetryCount c6st.activity "t1") ++
            " watchdog retries. Manual intervention needed." }]) :=
  ⟨by decide, by decide, by decide,
    watchdog_exhausted_retries_behavior c6env "proj" c6st "t1" []
      (by decide) (by decide) (by decide)⟩

/-! ### C2: webhook idempotence -/

/-- Claim C2 (counterexample): delivering the same review-result payload
twice does not reproduce the state of a single delivery — each delivery
appends a fresh review activity record, so the activity log holds one
record after one delivery and two after two. -/
theorem reviewWebhook_double_delivery_counterexample :
    c2once.map (fun r => r.2.activity.length) = some 1 ∧
    c2twice.map (fun r => r.2.activity.length) = some 2 ∧
    c2twice.map (fun r => r.2) ≠ c2once.map (fun r => r.2) := by
  refine ⟨by decide, by decide, by decide⟩

theorem applyAttemptCall_policy (s : RetryState) (c : AttemptCall) :
    (applyAttemptCall s c).policy = s.policy := by
  by_cases hs : c.success <;>
    by_cases hm : s.policy.maxAttempts ≤ s.attempts.length + 1 <;>
      simp [applyAttemptCall, recordAttempt, hs, hm]

theorem applyAttemptCall_length (s : RetryState) (c : AttemptCall) :
    (applyAttemptCall s c).attempts.length = s.attempts.length + 1 := by
  by_cases hs : c.success <;>
    by_cases hm : s.policy.maxAttempts ≤ s.attempts.length + 1 <;>
      simp [applyAttemptCall, recordAttempt, hs, hm]

theorem applyAttemptCall_exhausted (s : RetryState) (c : AttemptCall)
    (h : s.attempts.length < s.policy.maxAttempts) :
    ((applyAttemptCall s c).status = RetryStatus.exhausted ↔
      (c.success = false ∧ (applyAttemptCall s c).attempts.length = s.policy.maxAttempts)) ∧
    ((applyAttemptCall s c).status = RetryStatus.exhausted →
      (applyAttemptCall s c).nextRetryAt = none) := by
  by_cases hs : c.success
  · simp [applyAttemptCall, recordAttempt, hs]
  · by_cases hm : s.policy.maxAttempts ≤ s.attempts.length + 1
    · simp only [applyAttemptCall, recordAttempt]
      simp [hs, hm]
      omega
    · simp only [applyAttemptCall, recordAttempt]
      simp [hs, hm]
      omega

theorem runAttempts_guarded_inv (cs : List AttemptCall) (s : RetryState)
    (hg : guardedSeq s cs = true)
    (hlen : s.attempts.length ≤ s.policy.maxAttempts)
    (hnra : s.status = RetryStatus.exhausted → s.nextRetryAt = none) :
    (runAttempts s cs).policy = s.policy ∧
    (runAttempts s cs).attempts.length ≤ s.policy.maxAttempts ∧
    ((runAttempts s cs).status = RetryStatus.exhausted →
      (runAttempts s cs).nextRetryAt = none) := by
  induction cs generalizing s with
  | nil => exact ⟨rfl, hlen, hnra⟩
  | cons c cs ih =>
    simp only [guardedSeq, Bool.and_eq_true, decide_eq_true_eq] at hg
    obtain ⟨hlt, hg⟩ := hg
    have hpol := applyAttemptCall_policy s c
    have hlen' : (applyAttemptCall s c).attempts.length ≤
        (applyAttemptCall s c).policy.maxAttempts := by
      rw [applyAttemptCall_length, hpol]
      omega
    have hnra' := (applyAttemptCall_exhausted s c hlt).2
    have hrec := ih (applyAttemptCall s c) hg hlen' hnra'
    have hrw : runAttempts s (c :: cs) = runAttempts (applyAttemptCall s c) cs := rfl
    rw [hrw]
    refine ⟨hrec.1.trans hpol, ?_, hrec.2.2⟩
    have := hrec.2.1
    rw [hpol] at this
    exact this

theorem runAttempts_last_exhausted (cs : List AttemptCall) (c : AttemptCall) (s : RetryState)
    (hg : guardedSeq s (cs ++ [c]) = true) :
    ((runAttempts s (cs ++ [c])).status = RetryStatus.exhausted ↔
      (c.success = false ∧
       (runAttempts s (cs ++ [c])).attempts.length = s.policy.maxAttempts)) := by
  induction cs generalizing s with
  | nil =>
    simp only [List.nil_append] at hg ⊢
    simp only [guardedSeq, Bool.and_eq_true, decide_eq_true_eq] at hg
    have h := (applyAttemptCall_exhausted s c hg.1).1
    exact h
  | cons c' cs ih =>
    simp only [List.cons_append] at hg ⊢
    simp only [guardedSeq, Bool.and_eq_true, decide_eq_true_eq] at hg
    obtain ⟨hlt, hg⟩ := hg
    have hrec := ih (applyAttemptCall s c') hg
    rw [applyAttemptCall_policy] at hrec
    exact hrec

/-- Claim C3 (amended): for every `recordAttempt` call sequence that
respects the `canRetry` guard (each call made only while
`attempts.length < policy.maxAttempts`), starting from `initRetryState`:
`attempts.length` never exceeds `policy.maxAttempts`; whenever the status
is `exhausted`, `nextRetryAt` is unset; and the status is `exhausted`
exactly when `attempts.length` equals `maxAttempts` and the last recorded
attempt failed. -/
theorem retryState_guarded_invariant (runId : String) (stepOrder : Nat)
    (taskId : Option String) (policy : RetryPolicy) (now : String) (cs : List AttemptCall)
    (hg : guardedSeq (initRetryState runId stepOrder taskId policy now) cs = true) :
    (runAttempts (initRetryState runId stepOrder taskId policy now) cs).attempts.length ≤
      policy.maxAttempts ∧
    ((runAttempts (initRetryState runId stepOrder taskId policy now) cs).status =
        RetryStatus.exhausted →
      (runAttempts (initRetryState runId stepOrder taskId policy now) cs).nextRetryAt = none) ∧
    (∀ cs' c, cs = cs' ++ [c] →
      ((runAttempts (initRetryState runId stepOrder taskId policy now) cs).status =
          RetryStatus.exhausted ↔
        (c.success = false ∧
         (runAttempts (initRetryState runId stepOrder taskId policy now) cs).attempts.length =
           policy.maxAttempts))) := by
  have hinv := runAttempts_guarded_inv cs (initRetryState runId stepOrder taskId policy now) hg
    (by simp [initRetryState]) (by simp [initRetryState])
  refine ⟨hinv.2.1, hinv.2.2, ?_⟩
  rintro cs' c rfl
  exact runAttempts_last_exhausted cs' c _ hg

/-- Witness for the amended C3 theorem: three consecutive guarded
failures under the default policy. -/
theorem retryState_guarded_invariant_witness :
    guardedSeq (initRetryState "run-1" 7 none DEFAULT_RETRY_POLICY "t0") c3guardedCalls = true ∧
    ((runAttempts (initRetryState "run-1" 7 none DEFAULT_RETRY_POLICY "t0")
        c3guardedCalls).attempts.length ≤ DEFAULT_RETRY_POLICY.maxAttempts ∧
     ((runAttempts (initRetryState "run-1" 7 none DEFAULT_RETRY_POLICY "t0")
          c3guardedCalls).status = RetryStatus.exhausted →
       (runAttempts (initRetryState "run-1" 7 none DEFAULT_RETRY_POLICY "t0")
          c3guardedCalls).nextRetryAt = none) ∧
     (∀ cs' c, c3guardedCalls = cs' ++ [c] →
       ((runAttempts (initRetryState "run-1" 7 none DEFAULT_RETRY_POLICY "t0")
            c3guardedCalls).status = RetryStatus.exhausted ↔
         (c.success = false ∧
          (runAttempts (initRetryState "run-1" 7 none DEFAULT_RETRY_POLICY "t0")
             c3guardedCalls).attempts.length = DEFAULT_RETRY_POLICY.maxAttempts)))) :=
  ⟨by decide, retryState_guarded_invariant "run-1" 7 none DEFAULT_RETRY_POLICY "t0"
    c3guardedCalls (by decide)⟩

theorem calculateRetryDelay_c4 (s : RetryState) (r : ℚ)
    (hlen : s.attempts.length = 1) (hpol : s.policy = c4Policy)
    (h0 : 0 ≤ r) (h1 : r ≤ 1) :
    180 ≤ calculateRetryDelay s r ∧ calculateRetryDelay s r ≤ 220 := by
  unfold calculateRetryDelay
  rw [hlen, hpol]
  have hb : ((c4Policy.baseDelayMs : ℚ)) = 100 := by norm_num [c4Policy]
  have hm : ((c4Policy.backoffMultiplier : ℚ)) = 2 := by norm_num [c4Policy]
  have hM : ((c4Policy.maxDelayMs : Int)) = 60000 := by norm_num [c4Policy]
  rw [hb, hm, hM]
  have hx1 : ((180 : Int) : ℚ) ≤ (100 : ℚ) * 2 ^ 1 + 100 * 2 ^ 1 * (1 / 10) * (2 * r - 1) := by
    push_cast
    nlinarith
  have hx2 : (100 : ℚ) * 2 ^ 1 + 100 * 2 ^ 1 * (1 / 10) * (2 * r - 1) ≤ ((220 : Int) : ℚ) := by
    push_cast
    nlinarith
  constructor
  · exact le_min (Int.le_floor.mpr hx1) (by norm_num)
  · refine le_trans (min_le_left _ _) ?_
    have := Int.floor_le_floor hx2
    simpa using this

/-- Claim C4 (amended): under policy
`{maxAttempts = 3, baseDelayMs = 100, backoffMultiplier = 2}` the retry
scheduled after the first failed attempt has delay
`baseDelay · multiplier = 200` ms within the ±10% jitter, i.e. in
`[180, 220]` ms, for every jitter draw in `[0, 1]`. -/
theorem firstRetryDelay_bounds (runId : String) (stepOrder : Nat) (taskId : Option String)
    (createdAt : String) (err : Option String) (dur : Option Nat) (now : String)
    (nowMs : Int) (r : ℚ) (h0 : 0 ≤ r) (h1 : r ≤ 1) :
    ∃ d : Int,
      (recordAttempt (initRetryState runId stepOrder taskId c4Policy createdAt)
          false err dur now nowMs r).nextRetryAt = some (nowMs + d) ∧
      180 ≤ d ∧ d ≤ 220 := by
  refine ⟨_, rfl, ?_⟩
  exact calculateRetryDelay_c4 _ r rfl rfl h0 h1

/-- Witness for the amended C4 theorem at the jitter draw `1/2`. -/
theorem firstRetryDelay_bounds_witness :
    (0 : ℚ) ≤ 1 / 2 ∧ (1 / 2 : ℚ) ≤ 1 ∧
    (∃ d : Int,
      (recordAttempt (initRetryState "run-1" 0 none c4Policy "t0")
          false (some "err") none "t1" 0 (1 / 2)).nextRetryAt = some (0 + d) ∧
      180 ≤ d ∧ d ≤ 220) :=
  ⟨by norm_num, by norm_num,
    firstRetryDelay_bounds "run-1" 0 none "t0" (some "err") none "t1" 0 (1 / 2)
      (by norm_num) (by norm_num)⟩

theorem reviewWebhook_delivery_appends_activity
    (env : ReviewWebhookEnv) (body : ReviewResultRequest) (projectName : String)
    (st : OrchState) (rid : String) (pn : Nat) (ps : PhaseState)
    (hrc : body.status = ReviewDecision.requestChanges)
    (hf : body.findings = some [])
    (hrid : body.runId = some rid) (hridne : rid ≠ "")
    (hpn : body.phaseNumber = some pn)
    (hps : env.phaseState = some ps) :
    reviewResultWebhook env body projectName st =
      some ({ status := "needs_clarification"
              message := "Reviewer requested changes but provided no specific findings. Human review needed." },
            { st with activity := st.activity ++ [reviewActivityEvent body] }) ∧
    ({ st with activity := st.activity ++ [reviewActivityEvent body] } : OrchState) ≠ st := by
  constructor
  · unfold reviewResultWebhook
    rw [hrid, hpn, hps, hrc, hf]
    have htru : strTruthy (some rid) = true := by
      simp [strTruthy]
      intro hc
      exact hridne (by simpa using hc)
    rw [htru]
    rfl
  · intro hcon
    have := congrArg OrchState.activity hcon
    simp at this

/-- Witness for the amended C2 theorem at the concrete payload. -/
theorem reviewWebhook_delivery_appends_activity_witness :
    c2body.status = ReviewDecision.requestChanges ∧
    c2body.findings = some [] ∧
    c2body.runId = some "run-1" ∧ "run-1" ≠ "" ∧
    c2body.phaseNumber = some 2 ∧
    c2env.phaseState = some (initPhase "run-1" 2 "/repo" "main" ["w1"] ["t1"] "t0") ∧
    (reviewResultWebhook c2env c2body "proj" {} =
      some ({ status := "needs_clarification"
              message := "Reviewer requested changes but provided no specific findings. Human review needed." },
            { ({} : OrchState) with
              activity := ({} : OrchState).activity ++ [reviewActivityEvent c2body] }) ∧
     ({ ({} : OrchState) with
        activity := ({} : OrchState).activity ++ [reviewActivityEvent c2body] } : OrchState) ≠
       ({} : OrchState)) :=
  ⟨rfl, rfl, rfl, by decide, rfl, rfl,
    reviewWebhook_delivery_appends_activity c2env c2body "proj" {} "run-1" 2
      (initPhase "run-1" 2 "/repo" "main" ["w1"] ["t1"] "t0")
      rfl rfl rfl (by decide) rfl rfl⟩

theorem completionToPW_ne_running (c : CompletionInput) :
    completionToPW c ≠ PWStatus.running := by
  cases c <;> simp [completionToPW]

theorem updateFirstWorker_exists (workers : List PhaseWorker) (wid : String)
    (f : PhaseWorker → PhaseWorker)
    (h : workers.any (fun w => w.workerId == wid) = true) :
    ∃ w0, w0 ∈ workers ∧ w0.workerId = wid ∧ f w0 ∈ updateFirstWorker workers wid f := by
  induction workers with
  | nil => simp at h
  | cons w ws ih =>
    by_cases hw : w.workerId == wid
    · exact ⟨w, List.mem_cons_self _ _, by simpa using hw, by simp [updateFirstWorker, hw]⟩
    · have hws : ws.any (fun w => w.workerId == wid) = true := by
        simpa [List.any_cons, hw] using h
      obtain ⟨w0, hmem, heq, hres⟩ := ih hws
      exact ⟨w0, List.mem_cons_of_mem _ hmem, heq, by simp [updateFirstWorker, hw, hres]⟩

theorem updateFirstWorker_all (workers : List PhaseWorker) (wid : String)
    (f : PhaseWorker → PhaseWorker) (P : PhaseWorker → Bool)
    (hall : workers.all P = true) (hf : ∀ w, P (f w) = true) :
    (updateFirstWorker workers wid f).all P = true := by
  induction workers with
  | nil => simp [updateFirstWorker]
  | cons w ws ih =>
    simp only [List.all_cons, Bool.and_eq_true] at hall
    by_cases hw : w.workerId == wid
    · simp [updateFirstWorker, hw, hf w, List.all_eq_true]
      intro x hx
      have := List.all_eq_true.mp hall.2
      exact this x hx
    · simp only [updateFirstWorker, if_neg hw, List.all_cons, Bool.and_eq_true]
      exact ⟨hall.1, ih hall.2⟩

theorem onWorkerComplete_some_spec (st : PhaseState) (wid : String) (c : CompletionInput)
    (o e : Option String) (now : String) (pc as : Bool) (st' : PhaseState)
    (h : onWorkerComplete st wid c o e now = some (pc, as, st')) :
    pc = st'.workers.all (fun w => w.status ≠ PWStatus.running) ∧
    as = st'.workers.all (fun w => w.status = PWStatus.completed) ∧
    ∃ w ∈ st'.workers, w.workerId = wid ∧ w.status = completionToPW c := by
  unfold onWorkerComplete at h
  by_cases hany : st.workers.any (fun w => w.workerId == wid)
  · rw [if_pos hany] at h
    have h' := Option.some.inj h
    obtain ⟨hpc, has, hst⟩ : pc = _ ∧ as = _ ∧ _ = st' := by
      have h1 := congrArg Prod.fst h'
      have h2 := congrArg (fun x => x.2.1) h'
      have h3 := congrArg (fun x => x.2.2) h'
      exact ⟨h1.symm, h2.symm, h3⟩
    subst hst
    refine ⟨by simpa using hpc, by simpa using has, ?_⟩
    obtain ⟨w0, hmem, heq, hres⟩ := updateFirstWorker_exists st.workers wid _ hany
    exact ⟨_, hres, by simpa using heq, rfl⟩
  · rw [if_neg hany] at h
    exact absurd h (by simp)

theorem applyWorkerCall_preserves_nonrunning (st : PhaseState) (c : WorkerCall)
    (hall : st.workers.all (fun w => w.status ≠ PWStatus.running) = true) :
    (applyWorkerCall st c).workers.all (fun w => w.status ≠ PWStatus.running) = true := by
  unfold applyWorkerCall
  cases hc : onWorkerComplete st c.workerId c.cstatus c.output c.error c.now with
  | none => exact hall
  | some r =>
    unfold onWorkerComplete at hc
    by_cases hany : st.workers.any (fun w => w.workerId == c.workerId)
    · rw [if_pos hany] at hc
      have hr := (Option.some.inj hc).symm
      have hw : r.2.2.workers = updateFirstWorker st.workers c.workerId (fun w =>
          { w with
            status := completionToPW c.cstatus
            completedAt := some c.now
            output := c.output
            error := c.error }) := by
        rw [hr]
      rw [hw]
      refine updateFirstWorker_all _ _ _ _ hall ?_
      intro w
      simpa using completionToPW_ne_running c.cstatus
    · rw [if_neg hany] at hc
      exact absurd hc (by simp)

theorem runWorkerCalls_preserves_nonrunning (cs : List WorkerCall) (st : PhaseState)
    (hall : st.workers.all (fun w => w.status ≠ PWStatus.running) = true) :
    (runWorkerCalls st cs).workers.all (fun w => w.status ≠ PWStatus.running) = true := by
  induction cs generalizing st with
  | nil => exact hall
  | cons c cs ih => exact ih _ (applyWorkerCall_preserves_nonrunning st c hall)

/-- Claim C7: `onWorkerComplete` sets the named worker's status and
returns `phaseComplete` = "every worker is non-running" and
`allSucceeded` = "every worker is completed" over the updated worker
list; and once a call returns `phaseComplete = true`, no later
`onWorkerComplete` call on that phase (through any sequence of further
calls) ever returns `phaseComplete = false`. -/
theorem onWorkerComplete_aggregation_monotone :
    (∀ (st : PhaseState) (wid : String) (c : CompletionInput) (o e : Option String)
       (now : String) (pc as : Bool) (st' : PhaseState),
       onWorkerComplete st wid c o e now = some (pc, as, st') →
         (pc = st'.workers.all (fun w => w.status ≠ PWStatus.running) ∧
          as = st'.workers.all (fun w => w.status = PWStatus.completed) ∧
          ∃ w ∈ st'.workers, w.workerId = wid ∧ w.status = completionToPW c)) ∧
    (∀ (st : PhaseState) (wid : String) (c : CompletionInput) (o e : Option String)
       (now : String) (as : Bool) (st' : PhaseState),
       onWorkerComplete st wid c o e now = some (true, as, st') →
       ∀ (cs : List WorkerCall) (wid2 : String) (c2 : CompletionInput)
         (o2 e2 : Option String) (now2 : String),
         (onWorkerComplete (runWorkerCalls st' cs) wid2 c2 o2 e2 now2).map
             (fun r => r.1) ≠ some false) := by
  constructor
  · exact onWorkerComplete_some_spec
  · intro st wid c o e now as st' h cs wid2 c2 o2 e2 now2
    have hspec := onWorkerComplete_some_spec st wid c o e now true as st' h
    have hall : st'.workers.all (fun w => w.status ≠ PWStatus.running) = true := hspec.1.symm
    have hrun := runWorkerCalls_preserves_nonrunning cs st' hall
    cases h2 : onWorkerComplete (runWorkerCalls st' cs) wid2 c2 o2 e2 now2 with
    | none => simp
    | some r =>
      obtain ⟨pc2, as2, st2⟩ := r
      have hspec2 := onWorkerComplete_some_spec _ wid2 c2 o2 e2 now2 pc2 as2 st2 h2
      have hall2 : st2.workers.all (fun w => w.status ≠ PWStatus.running) = true := by
        unfold onWorkerComplete at h2
        by_cases hany : (runWorkerCalls st' cs).workers.any (fun w => w.workerId == wid2)
        · rw [if_pos hany] at h2
          have hr := (Option.some.inj h2).symm
          have hw : st2.workers = updateFirstWorker (runWorkerCalls st' cs).workers wid2
              (fun w =>
                { w with
                  status := completionToPW c2
                  completedAt := some now2
                  output := o2
                  error := e2 }) := by
            have := congrArg (fun x => x.2.2.workers) hr
            simpa using this
          rw [hw]
          refine updateFirstWorker_all _ _ _ _ hrun ?_
          intro w
          simpa using completionToPW_ne_running c2
        · rw [if_neg hany] at h2
          exact absurd h2 (by simp)
      have : pc2 = true := by
        rw [hspec2.1, hall2]
      rw [this]
      simp

/-- Witness for the C7 theorem: one-worker phase, worker completes, then
a later completion call still reports the phase complete. -/
theorem onWorkerComplete_aggregation_monotone_witness :
    (true = demoPhase1.workers.all (fun w => w.status ≠ PWStatus.running) ∧
     true = demoPhase1.workers.all (fun w => w.status = PWStatus.completed) ∧
     ∃ w ∈ demoPhase1.workers, w.workerId = "w1" ∧
       w.status = completionToPW CompletionInput.completed) ∧
    (onWorkerComplete (runWorkerCalls demoPhase1 []) "w1" CompletionInput.failed
        none none "t2").map (fun r => r.1) ≠ some false :=
  ⟨onWorkerComplete_aggregation_monotone.1 demoPhase "w1" CompletionInput.completed
      none none "t1" true true demoPhase1 (by decide),
   onWorkerComplete_aggregation_monotone.2 demoPhase "w1" CompletionInput.completed
      none none "t1" true demoPhase1 (by decide) [] "w1" CompletionInput.failed
      none none "t2"⟩

theorem mem_saveFixCycle_self (cycles : List FixCycle) (c : FixCycle) :
    c ∈ saveFixCycle cycles c := by
  induction cycles with
  | nil => simp [saveFixCycle]
  | cons c' cs ih =>
    by_cases h : c'.id == c.id
    · simp [saveFixCycle, h]
    · simp only [saveFixCycle, if_neg h]
      exact List.mem_cons_of_mem _ ih

theorem mem_of_mem_saveFixCycle (cycles : List FixCycle) (c x : FixCycle)
    (hx : x ∈ saveFixCycle cycles c) : x = c ∨ x ∈ cycles := by
  induction cycles with
  | nil => simpa [saveFixCycle] using hx
  | cons c' cs ih =>
    by_cases h : c'.id == c.id
    · simp only [saveFixCycle, if_pos h] at hx
      rcases List.mem_cons.mp hx with h1 | h1
      · exact Or.inl h1
      · exact Or.inr (List.mem_cons_of_mem _ h1)
    · simp only [saveFixCycle, if_neg h] at hx
      rcases List.mem_cons.mp hx with h1 | h1
      · exact Or.inr (h1 ▸ List.mem_cons_self _ _)
      · rcases ih h1 with h2 | h2
        · exact Or.inl h2
        · exact Or.inr (List.mem_cons_of_mem _ h2)

theorem getFixCycle_mem (cycles : List FixCycle) (runId : String) (pn : Nat) (c : FixCycle)
    (h : getFixCycle cycles runId pn = some c) : c ∈ cycles :=
  List.mem_of_find?_eq_some h

/-- Claim C8: with the phase state present, a fix request with
`fixCount < maxFixAttempts` and a successful fixer spawn increments the
cycle's `fixCount` and marks it `fixing` (one spawn, no escalation); with
`fixCount` at `maxFixAttempts` it creates a severity-`high` escalation
and marks the cycle `escalated` without spawning; hence `fixCount` never
exceeds `maxFixAttempts`. -/
theorem handleFixRequest_cap_spec
    (env : FixRequestEnv) (runId : String) (pn : Nat) (instr : String)
    (comments : Option String) (st : OrchState) (ps : PhaseState)
    (hps : env.phaseState = some ps) :
    ((pendingFixCycle st runId pn ps env.now).fixCount <
        (pendingFixCycle st runId pn ps env.now).maxFixAttempts →
      ∀ sk, env.spawnResult = some sk →
        (handleFixRequest env runId pn instr comments st).1.success = true ∧
        (handleFixRequest env runId pn instr comments st).1.fixerSession = some sk ∧
        (handleFixRequest env runId pn instr comments st).2.fixerSpawns =
          st.fixerSpawns + 1 ∧
        (handleFixRequest env runId pn instr comments st).2.escalations = st.escalations ∧
        (∃ c' ∈ (handleFixRequest env runId pn instr comments st).2.fixCycles,
          c'.id = (pendingFixCycle st runId pn ps env.now).id ∧
          c'.fixCount = (pendingFixCycle st runId pn ps env.now).fixCount + 1 ∧
          c'.status = FixCycleStatus.fixing)) ∧
    ((pendingFixCycle st runId pn ps env.now).maxFixAttempts ≤
        (pendingFixCycle st runId pn ps env.now).fixCount →
      (handleFixRequest env runId pn instr comments st).1.escalated = true ∧
      (handleFixRequest env runId pn instr comments st).2.fixerSpawns = st.fixerSpawns ∧
      (∃ esc, (handleFixRequest env runId pn instr comments st).2.escalations =
          st.escalations ++ [esc] ∧ esc.severity = EscalationSeverity.high ∧
          esc.status = EscalationStatus.opened) ∧
      (∃ c' ∈ (handleFixRequest env runId pn instr comments st).2.fixCycles,
        c'.id = (pendingFixCycle st runId pn ps env.now).id ∧
        c'.fixCount = (pendingFixCycle st runId pn ps env.now).fixCount ∧
        c'.status = FixCycleStatus.escalated)) ∧
    ((∀ c ∈ st.fixCycles, c.fixCount ≤ c.maxFixAttempts) →
      ∀ c ∈ (handleFixRequest env runId pn instr comments st).2.fixCycles,
        c.fixCount ≤ c.maxFixAttempts) := by
  cases hfound : getFixCycle st.fixCycles runId pn with
  | some c0 =>
    have hcyc : pendingFixCycle st runId pn ps env.now = c0 := by
      simp [pendingFixCycle, hfound]
    rw [hcyc]
    refine ⟨?_, ?_, ?_⟩
    · intro hlt sk hsk
      have hnot : ¬(c0.maxFixAttempts ≤ c0.fixCount) := by omega
      simp only [handleFixRequest, hps, hfound, if_neg hnot, hsk]
      refine ⟨?_, ?_, ?_, ?_, _, mem_saveFixCycle_self _ _, ?_, ?_, ?_⟩ <;>
        first | rfl | trivial
    · intro hle
      simp only [handleFixRequest, hps, hfound, if_pos hle, createEscalation]
      refine ⟨?_, ?_, ⟨_, rfl, rfl, rfl⟩, _, mem_saveFixCycle_self _ _, ?_, ?_, ?_⟩ <;>
        first | rfl | trivial
    · intro hcap c hc
      have hc0mem := getFixCycle_mem st.fixCycles runId pn c0 hfound
      have hc0cap := hcap c0 hc0mem
      by_cases hcond : c0.maxFixAttempts ≤ c0.fixCount
      · simp only [handleFixRequest, hps, hfound, if_pos hcond] at hc
        rcases mem_of_mem_saveFixCycle _ _ _ hc with h1 | h1
        · subst h1
          exact hc0cap
        · exact hcap c h1
      · cases hsk : env.spawnResult with
        | none =>
          simp only [handleFixRequest, hps, hfound, if_neg hcond, hsk] at hc
          exact hcap c hc
        | some sk =>
          simp only [handleFixRequest, hps, hfound, if_neg hcond, hsk] at hc
          rcases mem_of_mem_saveFixCycle _ _ _ hc with h1 | h1
          · subst h1
            simp only []
            omega
          · exact hcap c h1
  | none =>
    have hcyc : pendingFixCycle st runId pn ps env.now =
        (createFixCycle st.fixCycles runId pn
          (ps.phaseBranch.getD ("swarmops/" ++ runId ++ "/phase-" ++ toString pn))
          ps.repoDir env.now).1 := by
      simp [pendingFixCycle, hfound]
    rw [hcyc]
    refine ⟨?_, ?_, ?_⟩
    · intro hlt sk hsk
      simp only [createFixCycle] at hlt ⊢
      have hnot : ¬(3 ≤ 0) := by omega
      simp only [handleFixRequest, hps, hfound, createFixCycle, if_neg hnot, hsk]
      refine ⟨?_, ?_, ?_, ?_, _, mem_saveFixCycle_self _ _, ?_, ?_, ?_⟩ <;>
        first | rfl | trivial
    · intro hle
      simp only [createFixCycle] at hle
      omega
    · intro hcap c hc
      cases hsk : env.spawnResult with
      | none =>
        simp only [handleFixRequest, hps, hfound, createFixCycle] at hc
        have hnot : ¬(3 ≤ 0) := by omega
        rw [if_neg hnot] at hc
        simp only [hsk] at hc
        rcases List.mem_append.mp hc with h1 | h1
        · exact hcap c h1
        · simp only [List.mem_singleton] at h1
          subst h1
          simp
      | some sk =>
        simp only [handleFixRequest, hps, hfound, createFixCycle] at hc
        have hnot : ¬(3 ≤ 0) := by omega
        rw [if_neg hnot] at hc
        simp only [hsk] at hc
        rcases mem_of_mem_saveFixCycle _ _ _ hc with h1 | h1
        · subst h1
          simp
        · rcases List.mem_append.mp h1 with h2 | h2
          · exact hcap c h2
          · simp only [List.mem_singleton] at h2
            subst h2
            simp

theorem resolvePhases_length (b : Bool) (l : List PhaseInfo) :
    (resolvePhases b l).length = l.length := by
  induction l generalizing b with
  | nil => rfl
  | cons p rest ih => simp [resolvePhases, ih]

theorem updatePhaseStatuses_eq_resolve (rest : List PhaseInfo) :
    ∀ acc : List PhaseInfo, (∀ p ∈ rest, p.status = PhaseStatus.pending) →
      updatePhaseStatuses acc rest =
        acc ++ resolvePhases (acc.all fun q => q.status = PhaseStatus.completed) rest := by
  induction rest with
  | nil =>
    intro acc _
    simp [updatePhaseStatuses, resolvePhases]
  | cons p rest ih =>
    intro acc hpend
    have hp : p.status = PhaseStatus.pending := hpend p (List.mem_cons_self _ _)
    have hrest : ∀ q ∈ rest, q.status = PhaseStatus.pending :=
      fun q hq => hpend q (List.mem_cons_of_mem _ hq)
    have hstat :
        (if phaseAllDone p then PhaseStatus.completed
         else if phaseAnyUndone p && acc.isEmpty then PhaseStatus.running
         else if (acc.all fun q => q.status = PhaseStatus.completed) && phaseAnyUndone p then
           PhaseStatus.running
         else p.status) =
        (if phaseAllDone p then PhaseStatus.completed
         else if phaseAnyUndone p && (acc.all fun q => q.status = PhaseStatus.completed) then
           PhaseStatus.running
         else p.status) := by
      by_cases hd : phaseAllDone p = true
      · simp [hd]
      · cases hacc : acc with
        | nil =>
          by_cases hb : phaseAnyUndone p = true <;> simp [hd, hb]
        | cons a as =>
          by_cases hb : phaseAnyUndone p = true <;>
            by_cases hc : ((a :: as).all fun q => q.status = PhaseStatus.completed) = true <;>
              simp [hd, hb, hc]
    show updatePhaseStatuses (acc ++ [_]) rest = _
    rw [ih _ hrest]
    rw [hstat]
    have hall : ((acc ++ [{ p with status :=
        (if phaseAllDone p then PhaseStatus.completed
         else if phaseAnyUndone p && (acc.all fun q => q.status = PhaseStatus.completed) then
           PhaseStatus.running
         else p.status) }]).all fun q => q.status = PhaseStatus.completed) =
        ((acc.all fun q => q.status = PhaseStatus.completed) && phaseAllDone p) := by
      rw [List.all_append]
      simp only [List.all_cons, List.all_nil, Bool.and_true]
      by_cases hd : phaseAllDone p = true
      · simp [hd]
      · by_cases ha : (phaseAnyUndone p && (acc.all fun q => q.status = PhaseStatus.completed)) = true
        · simp [hd, ha]
        · simp only [hd, if_false, Bool.not_eq_true] at *
          simp [hd, ha, hp]
    rw [hall]
    simp [resolvePhases, List.append_assoc]

theorem parsePhasesGo_pending (graph : List (String × GraphTask)) (lines : List String) :
    ∀ (cur : Option (Nat × String)) (curTasks : List GraphTask) (acc : List PhaseInfo),
      (∀ p ∈ acc, p.status = PhaseStatus.pending) →
      ∀ p ∈ parsePhasesGo graph lines cur curTasks acc, p.status = PhaseStatus.pending := by
  induction lines with
  | nil =>
    intro cur curTasks acc hacc p hp
    cases cur with
    | none => exact hacc p hp
    | some nm =>
      obtain ⟨n, name⟩ := nm
      simp only [parsePhasesGo] at hp
      rcases List.mem_append.mp hp with h | h
      · exact hacc p h
      · simp only [List.mem_singleton] at h
        subst h
        rfl
  | cons line rest ih =>
    intro cur curTasks acc hacc p hp
    cases hm : matchPhaseHeader line with
    | some nm =>
      obtain ⟨n, name⟩ := nm
      cases cur with
      | none =>
        simp only [parsePhasesGo, hm] at hp
        exact ih _ _ _ hacc p hp
      | some mv =>
        obtain ⟨m, nmm⟩ := mv
        simp only [parsePhasesGo, hm] at hp
        refine ih _ _ _ ?_ p hp
        intro q hq
        rcases List.mem_append.mp hq with h | h
        · exact hacc q h
        · simp only [List.mem_singleton] at h
          subst h
          rfl
    | none =>
      cases cur with
      | none =>
        simp only [parsePhasesGo, hm] at hp
        exact ih _ _ _ hacc p hp
      | some mv =>
        obtain ⟨m, nmm⟩ := mv
        cases hid : extractTaskId line.toList with
        | none =>
          simp only [parsePhasesGo, hm, hid] at hp
          exact ih _ _ _ hacc p hp
        | some tid =>
          cases hl : lookupTask graph tid with
          | none =>
            simp only [parsePhasesGo, hm, hid, hl] at hp
            exact ih _ _ _ hacc p hp
          | some task =>
            simp only [parsePhasesGo, hm, hid, hl] at hp
            exact ih _ _ _ hacc p hp

theorem phaseAllDone_not_anyUndone (p : PhaseInfo) (h : phaseAllDone p = true) :
    phaseAnyUndone p = false := by
  simp only [phaseAllDone, Bool.and_eq_true, List.all_eq_true] at h
  simp only [phaseAnyUndone]
  rw [List.any_eq_false]
  intro t ht
  simpa using h.2 t ht

theorem resolvePhases_get (l : List PhaseInfo) (hpend : ∀ p ∈ l, p.status = PhaseStatus.pending) :
    ∀ (b : Bool) (i : Nat) (h : i < l.length) (h' : i < (resolvePhases b l).length),
      ((resolvePhases b l).get ⟨i, h'⟩).tasks = (l.get ⟨i, h⟩).tasks ∧
      (((resolvePhases b l).get ⟨i, h'⟩).status = PhaseStatus.completed ↔
        phaseAllDone (l.get ⟨i, h⟩) = true) ∧
      (((resolvePhases b l).get ⟨i, h'⟩).status = PhaseStatus.running ↔
        (phaseAnyUndone (l.get ⟨i, h⟩) = true ∧ b = true ∧
         ∀ j, j < i → ∀ hj' : j < l.length, phaseAllDone (l.get ⟨j, hj'⟩) = true)) ∧
      (((resolvePhases b l).get ⟨i, h'⟩).status = PhaseStatus.pending ∨
       ((resolvePhases b l).get ⟨i, h'⟩).status = PhaseStatus.running ∨
       ((resolvePhases b l).get ⟨i, h'⟩).status = PhaseStatus.completed) := by
  induction l with
  | nil =>
    intro b i h h'
    exact absurd h (by simp)
  | cons p rest ih =>
    intro b i h h'
    have hp : p.status = PhaseStatus.pending := hpend p (List.mem_cons_self _ _)
    have hrest : ∀ q ∈ rest, q.status = PhaseStatus.pending :=
      fun q hq => hpend q (List.mem_cons_of_mem _ hq)
    cases i with
    | zero =>
      have hget0 : (resolvePhases b (p :: rest)).get ⟨0, h'⟩ =
          { p with status :=
            (if phaseAllDone p then PhaseStatus.completed
             else if phaseAnyUndone p && b then PhaseStatus.running
             else p.status) } := rfl
      have hgetl : (p :: rest).get ⟨0, h⟩ = p := rfl
      have hstatus : ({ p with status :=
          (if phaseAllDone p then PhaseStatus.completed
           else if phaseAnyUndone p && b then PhaseStatus.running
           else p.status) } : PhaseInfo).status =
          (if phaseAllDone p then PhaseStatus.completed
           else if phaseAnyUndone p && b then PhaseStatus.running
           else p.status) := rfl
      rw [hget0, hgetl, hstatus]
      by_cases hd : phaseAllDone p = true
      · rw [if_pos hd]
        refine ⟨rfl, iff_of_true rfl hd, ?_, Or.inr (Or.inr rfl)⟩
        refine iff_of_false (by simp) ?_
        rintro ⟨hu, -⟩
        rw [phaseAllDone_not_anyUndone p hd] at hu
        exact absurd hu (by simp)
      · rw [if_neg hd]
        by_cases hab : (phaseAnyUndone p && b) = true
        · rw [if_pos hab]
          have hab2 := hab
          rw [Bool.and_eq_true] at hab2
          refine ⟨rfl, iff_of_false (by simp) hd, ?_, Or.inr (Or.inl rfl)⟩
          exact iff_of_true rfl ⟨hab2.1, hab2.2, fun j hj _ => absurd hj (by omega)⟩
        · rw [if_neg hab, hp]
          refine ⟨rfl, iff_of_false (by simp) hd, ?_, Or.inl rfl⟩
          refine iff_of_false (by simp) ?_
          rintro ⟨hu, hbb, -⟩
          refine hab ?_
          rw [Bool.and_eq_true]
          exact ⟨hu, hbb⟩
    | succ i =>
      have hlen : i < rest.length := by
        simpa using Nat.lt_of_succ_lt_succ h
      have hlen' : i < (resolvePhases (b && phaseAllDone p) rest).length := by
        rw [resolvePhases_length]
        exact hlen
      have hgl : ((p :: rest).get ⟨i + 1, h⟩) = rest.get ⟨i, hlen⟩ := rfl
      have hgr : ((resolvePhases b (p :: rest)).get ⟨i + 1, h'⟩) =
          (resolvePhases (b && phaseAllDone p) rest).get ⟨i, hlen'⟩ := rfl
      have hrec := ih hrest (b && phaseAllDone p) i hlen hlen'
      rw [hgl, hgr]
      refine ⟨hrec.1, hrec.2.1, ?_, hrec.2.2.2⟩
      rw [hrec.2.2.1]
      constructor
      · rintro ⟨hu, hba, hpre⟩
        rw [Bool.and_eq_true] at hba
        refine ⟨hu, hba.1, ?_⟩
        intro j hj hj'
        cases j with
        | zero => simpa using hba.2
        | succ j =>
          have hjr : j < rest.length := by simpa using Nat.lt_of_succ_lt_succ hj'
          have heq1 : (p :: rest).get ⟨j + 1, hj'⟩ = rest.get ⟨j, hjr⟩ := rfl
          rw [heq1]
          exact hpre j (by omega) hjr
      · rintro ⟨hu, hbb, hpre⟩
        have hdp : phaseAllDone p = true := by
          have h0 := hpre 0 (by omega) (by simp)
          simpa using h0
        refine ⟨hu, ?_, ?_⟩
        · rw [Bool.and_eq_true]
          exact ⟨hbb, hdp⟩
        · intro j hj hj'
          have hj2 : j + 1 < (p :: rest).length := by simpa using Nat.succ_lt_succ hj'
          have h1 := hpre (j + 1) (by omega) hj2
          have heq1 : (p :: rest).get ⟨j + 1, hj2⟩ = rest.get ⟨j, hj'⟩ := rfl
          rw [heq1] at h1
          exact h1

theorem phaseAllDone_iff (p : PhaseInfo) :
    phaseAllDone p = true ↔ (p.tasks ≠ [] ∧ ∀ t ∈ p.tasks, t.done = true) := by
  simp [phaseAllDone, List.all_eq_true, List.isEmpty_iff]

theorem phaseAnyUndone_iff (p : PhaseInfo) :
    phaseAnyUndone p = true ↔ ∃ t ∈ p.tasks, t.done = false := by
  simp [phaseAnyUndone, List.any_eq_true]

/-- Claim C5 (amended): in the phase list `parsePhases` derives, a
phase's status is `completed` iff it has at least one member task and all
of them are done; it is `running` iff it has some not-done task and every
earlier phase is completed (readiness of tasks is not consulted); and no
other status than `pending`/`running`/`completed` is ever assigned. -/
theorem parsePhases_status_characterization (content : String)
    (graph : List (String × GraphTask)) (i : Nat)
    (h : i < (parsePhases content graph).length) :
    (((parsePhases content graph).get ⟨i, h⟩).status = PhaseStatus.completed ↔
      (((parsePhases content graph).get ⟨i, h⟩).tasks ≠ [] ∧
       ∀ t ∈ ((parsePhases content graph).get ⟨i, h⟩).tasks, t.done = true)) ∧
    (((parsePhases content graph).get ⟨i, h⟩).status = PhaseStatus.running ↔
      ((∃ t ∈ ((parsePhases content graph).get ⟨i, h⟩).tasks, t.done = false) ∧
       ∀ j, j < i → ∀ hj2 : j < (parsePhases content graph).length,
         ((parsePhases content graph).get ⟨j, hj2⟩).status = PhaseStatus.completed)) ∧
    (((parsePhases content graph).get ⟨i, h⟩).status = PhaseStatus.pending ∨
     ((parsePhases content graph).get ⟨i, h⟩).status = PhaseStatus.running ∨
     ((parsePhases content graph).get ⟨i, h⟩).status = PhaseStatus.completed) := by
  have hbase : ∀ p ∈ parsePhasesGo graph (splitLines content) none [] [],
      p.status = PhaseStatus.pending :=
    parsePhasesGo_pending graph (splitLines content) none [] [] (by simp)
  have heq : parsePhases content graph =
      resolvePhases true (parsePhasesGo graph (splitLines content) none [] []) := by
    unfold parsePhases
    rw [updatePhaseStatuses_eq_resolve _ [] hbase]
    rfl
  have hres : i < (resolvePhases true
      (parsePhasesGo graph (splitLines content) none [] [])).length := by
    have h2 := h
    rwa [heq] at h2
  have hlb : i < (parsePhasesGo graph (splitLines content) none [] []).length := by
    have h2 := hres
    rwa [resolvePhases_length] at h2
  have hrec := resolvePhases_get _ hbase true i hlb hres
  have hget : (parsePhases content graph).get ⟨i, h⟩ =
      (resolvePhases true (parsePhasesGo graph (splitLines content) none [] [])).get
        ⟨i, hres⟩ :=
    List.get_of_eq heq ⟨i, h⟩
  have hgetj : ∀ j (hj2 : j < (parsePhases content graph).length)
      (hjr : j < (resolvePhases true
        (parsePhasesGo graph (splitLines content) none [] [])).length),
      (parsePhases content graph).get ⟨j, hj2⟩ =
        (resolvePhases true (parsePhasesGo graph (splitLines content) none [] [])).get
          ⟨j, hjr⟩ :=
    fun j hj2 _ => List.get_of_eq heq ⟨j, hj2⟩
  refine ⟨?_, ?_, ?_⟩
  · rw [hget, hrec.1, hrec.2.1]
    exact phaseAllDone_iff _
  · rw [hget, hrec.1, hrec.2.2.1]
    constructor
    · rintro ⟨hu, -, hpre⟩
      refine ⟨(phaseAnyUndone_iff _).mp hu, ?_⟩
      intro j hj hj2
      have hjr : j < (resolvePhases true
          (parsePhasesGo graph (splitLines content) none [] [])).length := by
        have h2 := hj2
        rwa [heq] at h2
      have hjb : j < (parsePhasesGo graph (splitLines content) none [] []).length := by
        have h2 := hjr
        rwa [resolvePhases_length] at h2
      have hrecj := resolvePhases_get _ hbase true j hjb hjr
      rw [hgetj j hj2 hjr, hrecj.2.1]
      exact hpre j hj hjb
    · rintro ⟨hu, hpre⟩
      refine ⟨(phaseAnyUndone_iff _).mpr hu, rfl, ?_⟩
      intro j hj hjb
      have hjr : j < (resolvePhases true
          (parsePhasesGo graph (splitLines content) none [] [])).length := by
        have h2 := hjb
        rwa [resolvePhases_length]
      have hj2 : j < (parsePhases content graph).length := by
        have h2 := hjr
        rwa [← heq] at h2
      have hrecj := resolvePhases_get _ hbase true j hjb hjr
      have := hpre j hj hj2
      rw [hgetj j hj2 hjr, hrecj.2.1] at this
      exact this
  · rw [hget]
    exact hrec.2.2.2

/-- Witness for the amended C5 theorem: a two-phase document whose first
phase is fully done and whose second phase has an open task. -/
theorem parsePhases_status_characterization_witness :
    1 < (parsePhases c5wdoc c5wgraph).length ∧
    ((((parsePhases c5wdoc c5wgraph).get ⟨1, by decide⟩).status = PhaseStatus.completed ↔
      (((parsePhases c5wdoc c5wgraph).get ⟨1, by decide⟩).tasks ≠ [] ∧
       ∀ t ∈ ((parsePhases c5wdoc c5wgraph).get ⟨1, by decide⟩).tasks, t.done = true)) ∧
    (((parsePhases c5wdoc c5wgraph).get ⟨1, by decide⟩).status = PhaseStatus.running ↔
      ((∃ t ∈ ((parsePhases c5wdoc c5wgraph).get ⟨1, by decide⟩).tasks, t.done = false) ∧
       ∀ j, j < 1 → ∀ hj2 : j < (parsePhases c5wdoc c5wgraph).length,
         ((parsePhases c5wdoc c5wgraph).get ⟨j, hj2⟩).status = PhaseStatus.completed)) ∧
    (((parsePhases c5wdoc c5wgraph).get ⟨1, by decide⟩).status = PhaseStatus.pending ∨
     ((parsePhases c5wdoc c5wgraph).get ⟨1, by decide⟩).status = PhaseStatus.running ∨
     ((parsePhases c5wdoc c5wgraph).get ⟨1, by decide⟩).status = PhaseStatus.completed)) :=
  ⟨by decide, parsePhases_status_characterization c5wdoc c5wgraph 1 (by decide)⟩

/-- Witness for the C8 theorem: a fresh fix cycle (`fixCount = 0`) with a
successful fixer spawn. -/
theorem handleFixRequest_cap_spec_witness :
    c8env.phaseState = some c8ps ∧
    (((pendingFixCycle {} "run-1" 2 c8ps c8env.now).fixCount <
        (pendingFixCycle {} "run-1" 2 c8ps c8env.now).maxFixAttempts →
      ∀ sk, c8env.spawnResult = some sk →
        (handleFixRequest c8env "run-1" 2 "1. [HIGH] a.ts: x" none {}).1.success = true ∧
        (handleFixRequest c8env "run-1" 2 "1. [HIGH] a.ts: x" none {}).1.fixerSession =
          some sk ∧
        (handleFixRequest c8env "run-1" 2 "1. [HIGH] a.ts: x" none {}).2.fixerSpawns =
          OrchState.fixerSpawns {} + 1 ∧
        (handleFixRequest c8env "run-1" 2 "1. [HIGH] a.ts: x" none {}).2.escalations =
          OrchState.escalations {} ∧
        (∃ c' ∈ (handleFixRequest c8env "run-1" 2 "1. [HIGH] a.ts: x" none {}).2.fixCycles,
          c'.id = (pendingFixCycle {} "run-1" 2 c8ps c8env.now).id ∧
          c'.fixCount = (pendingFixCycle {} "run-1" 2 c8ps c8env.now).fixCount + 1 ∧
          c'.status = FixCycleStatus.fixing)) ∧
    ((pendingFixCycle {} "run-1" 2 c8ps c8env.now).maxFixAttempts ≤
        (pendingFixCycle {} "run-1" 2 c8ps c8env.now).fixCount →
      (handleFixRequest c8env "run-1" 2 "1. [HIGH] a.ts: x" none {}).1.escalated = true ∧
      (handleFixRequest c8env "run-1" 2 "1. [HIGH] a.ts: x" none {}).2.fixerSpawns =
        OrchState.fixerSpawns {} ∧
      (∃ esc, (handleFixRequest c8env "run-1" 2 "1. [HIGH] a.ts: x" none {}).2.escalations =
          OrchState.escalations {} ++ [esc] ∧ esc.severity = EscalationSeverity.high ∧
          esc.status = EscalationStatus.opened) ∧
      (∃ c' ∈ (handleFixRequest c8env "run-1" 2 "1. [HIGH] a.ts: x" none {}).2.fixCycles,
        c'.id = (pendingFixCycle {} "run-1" 2 c8ps c8env.now).id ∧
        c'.fixCount = (pendingFixCycle {} "run-1" 2 c8ps c8env.now).fixCount ∧
        c'.status = FixCycleStatus.escalated)) ∧
    ((∀ c ∈ OrchState.fixCycles {}, c.fixCount ≤ c.maxFixAttempts) →
      ∀ c ∈ (handleFixRequest c8env "run-1" 2 "1. [HIGH] a.ts: x" none {}).2.fixCycles,
        c.fixCount ≤ c.maxFixAttempts)) :=
  ⟨rfl, handleFixRequest_cap_spec c8env "run-1" 2 "1. [HIGH] a.ts: x" none {} c8ps rfl⟩
